import Mathlib

/-!
Verification development for the flask-openapi3 repository.

This file gives a shallow embedding of the OpenAPI-specification
translation logic of the repository (files flask_openapi3/utils.py,
flask_openapi3/openapi.py and flask_openapi3/scaffold.py) and proves
properties of it.

Modelling conventions:
* Python dictionaries are insertion-ordered association lists
  (List (String × _)); assignment d[k] = v replaces the value in place
  when the key is present and appends otherwise, exactly as in Python.
* JSON-like Python data (the dictionaries produced by pydantic's
  model_json_schema, the openapi_extra configuration values, and the
  serialized specification document) is represented by the JValue type.
* pydantic's schema generation is a black box (out of scope per the
  specification); a model carries the schema dictionaries that
  model_json_schema would return as plain data.
* Strings are treated at the character level.  The character class \w
  of normalize_name is Python's Unicode one: the model is exact on ASCII
  characters and keeps every non-ASCII character (Python keeps the
  non-ASCII word characters among them), so pattern statements carry an
  ASCII hypothesis; the OpenAPI key pattern itself is ASCII and exact.
-/

/-- A Python/JSON value: None, bool, int, str, list, dict. -/
inductive JValue where
  | null
  | boolean (b : Bool)
  | num (n : Int)
  | str (s : String)
  | arr (items : List JValue)
  | obj (fields : List (String × JValue))
deriving Repr, BEq, Inhabited

/-- Python truthiness of a value: None, False, 0, "", [], {} are falsy. -/
def truthy : JValue → Bool
  | .null => false
  | .boolean b => b
  | .num n => n != 0
  | .str s => !s.isEmpty
  | .arr items => !items.isEmpty
  | .obj fields => !fields.isEmpty

/-- Python d.get(k): the value stored under key k, if present. -/
def dictGet {α : Type} : List (String × α) → String → Option α
  | [], _ => none
  | (k', v) :: rest, k => if k' = k then some v else dictGet rest k

/-- Python d[k] = v: replace in place when the key is present, else append. -/
def dictSet {α : Type} : List (String × α) → String → α → List (String × α)
  | [], k, v => [(k, v)]
  | (k', v') :: rest, k, v =>
      if k' = k then (k', v) :: rest else (k', v') :: dictSet rest k v

/-- Python d.update(u): assign every entry of u into d, in u's order. -/
def dictUpdate {α : Type} (d u : List (String × α)) : List (String × α) :=
  u.foldl (fun acc p => dictSet acc p.1 p.2) d

/-- Whether the dictionary has an entry under the key. -/
def hasKey {α : Type} (d : List (String × α)) (k : String) : Bool :=
  (dictGet d k).isSome

theorem dictGet_dictSet_self {α : Type} (d : List (String × α)) (k : String) (v : α) :
    dictGet (dictSet d k v) k = some v := by
  induction d with
  | nil => simp [dictSet, dictGet]
  | cons p rest ih =>
      obtain ⟨k', v'⟩ := p
      by_cases h : k' = k <;> simp [dictSet, dictGet, h, ih]

theorem dictGet_dictSet_ne {α : Type} (d : List (String × α)) (k k' : String) (v : α)
    (h : k' ≠ k) : dictGet (dictSet d k v) k' = dictGet d k' := by
  have h' : ¬(k = k') := fun hh => h hh.symm
  induction d with
  | nil => simp [dictSet, dictGet, h']
  | cons p rest ih =>
      obtain ⟨a, b⟩ := p
      by_cases ha : a = k
      · subst ha
        simp [dictSet, dictGet, h']
      · simp only [dictSet, if_neg ha]
        by_cases hb : a = k' <;> simp [dictGet, hb, ih]

theorem hasKey_dictSet {α : Type} (d : List (String × α)) (k k' : String) (v : α) :
    hasKey (dictSet d k v) k' = (k = k' || hasKey d k') := by
  by_cases h : k' = k
  · subst h; simp [hasKey, dictGet_dictSet_self]
  · have h' : ¬(k = k') := fun hh => h hh.symm
    simp [hasKey, dictGet_dictSet_ne d k k' v h, h']

theorem hasKey_dictSet_of {α : Type} (d : List (String × α)) (k k' : String) (v : α)
    (h : hasKey d k' = true) : hasKey (dictSet d k v) k' = true := by
  rw [hasKey_dictSet]; simp [h]

theorem dictGet_dictUpdate_of_not_mem {α : Type} (d u : List (String × α)) (k : String)
    (h : ∀ p ∈ u, p.1 ≠ k) : dictGet (dictUpdate d u) k = dictGet d k := by
  induction u generalizing d with
  | nil => rfl
  | cons p rest ih =>
      obtain ⟨a, b⟩ := p
      have ha : a ≠ k := h (a, b) (by simp)
      have h2 := ih (dictSet d a b) (fun q hq => h q (by simp [hq]))
      calc dictGet (dictUpdate d ((a, b) :: rest)) k
          = dictGet (dictUpdate (dictSet d a b) rest) k := rfl
        _ = dictGet (dictSet d a b) k := h2
        _ = dictGet d k := dictGet_dictSet_ne d a k b (Ne.symm ha)

theorem hasKey_dictUpdate {α : Type} (d u : List (String × α)) (k : String) :
    hasKey (dictUpdate d u) k = (hasKey d k || u.any (fun p => p.1 = k)) := by
  induction u generalizing d with
  | nil => simp [dictUpdate]
  | cons p rest ih =>
      obtain ⟨a, b⟩ := p
      have h2 := ih (dictSet d a b)
      have e : dictUpdate d ((a, b) :: rest) = dictUpdate (dictSet d a b) rest := rfl
      rw [e, h2, hasKey_dictSet]
      simp [Bool.or_assoc, Bool.or_left_comm, Bool.or_comm]

/-- Whether p occurs as a prefix of s, at the character level. -/
def charsPrefix : List Char → List Char → Bool
  | [], _ => true
  | _ :: _, [] => false
  | a :: as, b :: bs => a = b && charsPrefix as bs

/-- Whether p occurs as a contiguous run inside s, at the character level. -/
def charsSub (p : List Char) : List Char → Bool
  | [] => charsPrefix p []
  | c :: cs => charsPrefix p (c :: cs) || charsSub p cs

/-- Python's substring test: sub in s. -/
def strContains (s sub : String) : Bool := charsSub sub.toList s.toList

/-- Embeds utils.is_application_json: both "application" and "json" occur in
the content type string. -/
def is_application_json (content_type : String) : Bool :=
  strContains content_type "application" && strContains content_type "json"

/-- A character of the OpenAPI 3 component-key pattern cited in utils.py's
comment: [a-zA-Z0-9.\-_].  This class is ASCII by definition. -/
def asciiKeyChar (c : Char) : Bool :=
  c.isAlphanum || c = '_' || c = '.' || c = '-'

/-- A character matched by the regular-expression class [\w.\-] of
utils.normalize_name.  Python's \w is Unicode: on ASCII it is [A-Za-z0-9_];
among the non-ASCII characters Python keeps exactly the Unicode word
characters (accented letters and the like).  The model keeps every
non-ASCII character, so it is exact on ASCII characters and on non-ASCII
word characters; pattern statements about normalize_name are therefore
stated for ASCII inputs only, and keeping a non-ASCII word character such
as the letter in "Caf\u00e9" matches the program. -/
def isNameKeepChar (c : Char) : Bool :=
  asciiKeyChar c || 128 ≤ c.toNat

/-- Embeds utils.normalize_name: re.sub replaces every character outside the
class [\w.\-] with an underscore. -/
def normalize_name (name : String) : String :=
  String.mk (name.toList.map (fun c => if isNameKeepChar c then c else '_'))

/-- The OpenAPI 3 component-key pattern from utils.py's comment: the string
is non-empty and every character is in [a-zA-Z0-9.\-_]. -/
def matchesComponentKeyPattern (s : String) : Bool :=
  !s.toList.isEmpty && s.toList.all asciiKeyChar

/-- Modelled from the spec: the OPENAPI3_REF_PREFIX constant lives in the
flask_openapi3.models package, which is not part of the given sources; it is
the standard prefix for component-schema references. -/
def OPENAPI3_REF_PREFIX : String := "#/components/schemas"

/-- Modelled from the spec: DataType.STRING from flask_openapi3.models.data_type
(not part of the given sources), the JSON-schema "string" type name. -/
def DataTypeSTRING : String := "string"

/-- The stdlib table mapping status-code strings to standard HTTP phrases,
as built at utils.py line 43 from http.HTTPStatus (external; the entries are
the standard ones). -/
def HTTP_STATUS : List (String × String) :=
  [("100", "Continue"), ("101", "Switching Protocols"), ("102", "Processing"),
   ("103", "Early Hints"),
   ("200", "OK"), ("201", "Created"), ("202", "Accepted"),
   ("203", "Non-Authoritative Information"), ("204", "No Content"),
   ("205", "Reset Content"), ("206", "Partial Content"), ("207", "Multi-Status"),
   ("208", "Already Reported"), ("226", "IM Used"),
   ("300", "Multiple Choices"), ("301", "Moved Permanently"), ("302", "Found"),
   ("303", "See Other"), ("304", "Not Modified"), ("305", "Use Proxy"),
   ("307", "Temporary Redirect"), ("308", "Permanent Redirect"),
   ("400", "Bad Request"), ("401", "Unauthorized"), ("402", "Payment Required"),
   ("403", "Forbidden"), ("404", "Not Found"), ("405", "Method Not Allowed"),
   ("406", "Not Acceptable"), ("407", "Proxy Authentication Required"),
   ("408", "Request Timeout"), ("409", "Conflict"), ("410", "Gone"),
   ("411", "Length Required"), ("412", "Precondition Failed"),
   ("413", "Request Entity Too Large"), ("414", "Request-URI Too Long"),
   ("415", "Unsupported Media Type"), ("416", "Requested Range Not Satisfiable"),
   ("417", "Expectation Failed"), ("418", "I\x27m a Teapot"),
   ("421", "Misdirected Request"),
   ("422", "Unprocessable Entity"), ("423", "Locked"), ("424", "Failed Dependency"),
   ("425", "Too Early"), ("426", "Upgrade Required"), ("428", "Precondition Required"),
   ("429", "Too Many Requests"), ("431", "Request Header Fields Too Large"),
   ("451", "Unavailable For Legal Reasons"),
   ("500", "Internal Server Error"), ("501", "Not Implemented"), ("502", "Bad Gateway"),
   ("503", "Service Unavailable"), ("504", "Gateway Timeout"),
   ("505", "HTTP Version Not Supported"), ("506", "Variant Also Negotiates"),
   ("507", "Insufficient Storage"), ("508", "Loop Detected"), ("510", "Not Extended"),
   ("511", "Network Authentication Required")]

/-- Python HTTP_STATUS.get(key, ""): the standard phrase, or "" when unknown. -/
def httpStatusPhrase (key : String) : String := (dictGet HTTP_STATUS key).getD ""

/-- The openapi_extra entry of a model's model_config, with the keys the
library reads (absent key = none); the source treats it as a dict whose
truthiness guards the example/examples/encoding reads, and each of those
reads is itself guarded by key presence, so only these keys are observable. -/
structure OpenapiExtra where
  content_type : Option String := none
  content_schema : Option JValue := none
  exampleVal : Option JValue := none
  examples : Option JValue := none
  encoding : Option JValue := none
deriving Repr, BEq, Inhabited

/-- Python truthiness of the openapi_extra dict (no observable key present). -/
def OpenapiExtra.isEmptyDict (oe : OpenapiExtra) : Bool :=
  oe.content_type.isNone && oe.content_schema.isNone && oe.exampleVal.isNone &&
    oe.examples.isNone && oe.encoding.isNone

/-- pydantic's JsonSchemaMode argument of model_json_schema. -/
inductive JsonSchemaMode where
  | validation
  | serialization
deriving Repr, BEq, Inhabited

/-- A pydantic model class as the translation layer sees it: its class name,
its model_config openapi_extra, and the JSON-schema dictionaries that the
(black-box, out-of-scope) model_json_schema call returns for each mode. -/
structure PyModel where
  name : String
  openapi_extra : OpenapiExtra := {}
  validationSchema : List (String × JValue) := []
  serializationSchema : List (String × JValue) := []
deriving Repr, BEq, Inhabited

/-- Embeds utils.get_model_schema: model.model_json_schema(...) with the given
mode (the pydantic call itself is the black box carried by the model). -/
def get_model_schema (model : PyModel) (mode : JsonSchemaMode := .validation) :
    List (String × JValue) :=
  match mode with
  | .validation => model.validationSchema
  | .serialization => model.serializationSchema

/-- Python schema.get("title") or model.__name__: the schema title when it is
a non-empty string (truthy), the class name otherwise. -/
def schemaTitleOrName (schema : List (String × JValue)) (name : String) : String :=
  match dictGet schema "title" with
  | some (.str t) => if t.isEmpty then name else t
  | _ => name

/-- Python schema.get(key, {}).items(): the field list of a dict-valued key,
empty when the key is absent. -/
def getObjFields (schema : List (String × JValue)) (key : String) :
    List (String × JValue) :=
  match dictGet schema key with
  | some (.obj fields) => fields
  | _ => []

/-- A models.MediaType object: its schema (a Schema object or raw dict,
both represented as JValue) and the optional example/examples/encoding. -/
structure MediaType where
  schema : JValue
  exampleVal : Option JValue := none
  examples : Option JValue := none
  encoding : Option JValue := none
deriving Repr, BEq, Inhabited

/-- The Schema object Schema(**{"$ref": OPENAPI3_REF_PREFIX + "/" + title}). -/
def refSchema (title : String) : JValue :=
  .obj [("$ref", .str (OPENAPI3_REF_PREFIX ++ "/" ++ title))]

/-- A models.Parameter object as built by parse_header/cookie/path/query. -/
structure Parameter where
  name : String
  location : String
  required : Bool
  schema : JValue
  description : Option JValue := none
  deprecated : Option JValue := none
  exampleVal : Option JValue := none
  examples : Option JValue := none
deriving Repr, BEq, Inhabited

/-- Python "name in schema.get(\"required\", [])": membership of a string in
a JSON list (equality with a non-string element is False in Python). -/
def jStrMem (l : List JValue) (s : String) : Bool :=
  l.any (fun v => match v with | .str t => t = s | _ => false)

/-- The required list of a schema: schema.get("required", []) as a list. -/
def schemaRequiredList (schema : List (String × JValue)) : List JValue :=
  match dictGet schema "required" with
  | some (.arr items) => items
  | _ => []

/-- The shared per-property body of parse_header/cookie/path/query: build the
Parameter with the extra description/deprecated/example/examples values. -/
def mkParameter (location : String) (required : Bool) (name : String)
    (value : JValue) : Parameter :=
  let fields := match value with | .obj f => f | _ => []
  { name := name
    location := location
    required := required
    schema := value
    description := dictGet fields "description"
    deprecated := dictGet fields "deprecated"
    exampleVal := dictGet fields "example"
    examples := dictGet fields "examples" }

/-- Embeds utils.parse_header: one header Parameter per schema property,
required exactly when the property name is in the schema's required list;
the $defs of the schema become component schemas. -/
def parse_header (header : PyModel) : List Parameter × List (String × JValue) :=
  let schema := get_model_schema header
  let properties := getObjFields schema "properties"
  let parameters := properties.map (fun p =>
    mkParameter "header" (jStrMem (schemaRequiredList schema) p.1) p.1 p.2)
  let components_schemas := (getObjFields schema "$defs").foldl
    (fun cs p => dictSet cs p.1 p.2) []
  (parameters, components_schemas)

/-- Embeds utils.parse_cookie (same shape as parse_header, in=cookie). -/
def parse_cookie (cookie : PyModel) : List Parameter × List (String × JValue) :=
  let schema := get_model_schema cookie
  let properties := getObjFields schema "properties"
  let parameters := properties.map (fun p =>
    mkParameter "cookie" (jStrMem (schemaRequiredList schema) p.1) p.1 p.2)
  let components_schemas := (getObjFields schema "$defs").foldl
    (fun cs p => dictSet cs p.1 p.2) []
  (parameters, components_schemas)

/-- Embeds utils.parse_path: every path Parameter is built with
required=True unconditionally. -/
def parse_path (path : PyModel) : List Parameter × List (String × JValue) :=
  let schema := get_model_schema path
  let properties := getObjFields schema "properties"
  let parameters := properties.map (fun p => mkParameter "path" true p.1 p.2)
  let components_schemas := (getObjFields schema "$defs").foldl
    (fun cs p => dictSet cs p.1 p.2) []
  (parameters, components_schemas)

/-- Embeds utils.parse_query (same shape as parse_header, in=query). -/
def parse_query (query : PyModel) : List Parameter × List (String × JValue) :=
  let schema := get_model_schema query
  let properties := getObjFields schema "properties"
  let parameters := properties.map (fun p =>
    mkParameter "query" (jStrMem (schemaRequiredList schema) p.1) p.1 p.2)
  let components_schemas := (getObjFields schema "$defs").foldl
    (fun cs p => dictSet cs p.1 p.2) []
  (parameters, components_schemas)

/-- The Encoding(style="form", explode=True) object built by parse_form,
represented as its field dictionary. -/
def formExplodeEncoding : JValue :=
  .obj [("style", .str "form"), ("explode", .boolean true)]

/-- Embeds utils.parse_form.  The assert on non-empty properties is modelled
by the error case.  The media type under the configured content type (default
multipart/form-data) is a $ref to the normalized title; array-typed
properties get a form/explode encoding; $defs entries are copied verbatim
into the component schemas. -/
def parse_form (form : PyModel) :
    Except String (List (String × MediaType) × List (String × JValue)) :=
  let schema := get_model_schema form
  let openapi_extra := form.openapi_extra
  let content_type := openapi_extra.content_type.getD "multipart/form-data"
  let properties := getObjFields schema "properties"
  if properties.isEmpty then
    .error (form.name ++ " properties cannot be empty")
  else
    let original_title := schemaTitleOrName schema form.name
    let title := normalize_name original_title
    let components_schemas := dictSet [] title (.obj schema)
    let encoding := properties.foldl
      (fun e p =>
        if (match p.2 with | .obj f => dictGet f "type" | _ => none)
            == some (.str "array")
        then dictSet e p.1 formExplodeEncoding else e) []
    let media_type : MediaType := { schema := refSchema title }
    let media_type :=
      if openapi_extra.isEmptyDict then media_type
      else { media_type with
              exampleVal := openapi_extra.exampleVal
              examples := openapi_extra.examples
              encoding := openapi_extra.encoding }
    let media_type :=
      if encoding.isEmpty then media_type
      else { media_type with encoding := some (.obj encoding) }
    let content := dictSet [] content_type media_type
    let components_schemas := (getObjFields schema "$defs").foldl
      (fun cs p => dictSet cs p.1 p.2) components_schemas
    .ok (content, components_schemas)

/-- A request-body annotation: a single pydantic model, or a typing.Union /
PEP-604 union of models (get_origin in (Union, UnionType); get_args gives
the members). -/
inductive BodyAnn where
  | model (m : PyModel)
  | union (members : List PyModel)
deriving Repr, BEq, Inhabited

/-- The declared request content type of a body model:
openapi_extra content_type, defaulting to application/json. -/
def bodyContentType (m : PyModel) : String :=
  m.openapi_extra.content_type.getD "application/json"

/-- The openapi_extra content_schema with its default {"type": "string"}. -/
def contentSchemaOrDefault (oe : OpenapiExtra) : JValue :=
  oe.content_schema.getD (.obj [("type", .str DataTypeSTRING)])

/-- The normalized title of a body model (validation-mode schema title or
class name, normalized). -/
def bodyNormalizedTitle (m : PyModel) : String :=
  normalize_name (schemaTitleOrName (get_model_schema m) m.name)

/-- Embeds the inner _parse_body closure of utils.parse_body, threading the
content and components_schemas dictionaries it mutates. -/
def parseBodyStep (acc : List (String × MediaType) × List (String × JValue))
    (m : PyModel) : List (String × MediaType) × List (String × JValue) :=
  let (content, components_schemas) := acc
  let openapi_extra := m.openapi_extra
  let content_type := openapi_extra.content_type.getD "application/json"
  if !is_application_json content_type then
    let content_schema := contentSchemaOrDefault openapi_extra
    (dictSet content content_type { schema := content_schema }, components_schemas)
  else
    let schema := get_model_schema m
    let original_title := schemaTitleOrName schema m.name
    let title := normalize_name original_title
    let components_schemas := dictSet components_schemas title (.obj schema)
    let media_type : MediaType := { schema := refSchema title }
    let media_type :=
      if openapi_extra.isEmptyDict then media_type
      else { media_type with
              exampleVal := openapi_extra.exampleVal
              examples := openapi_extra.examples
              encoding := openapi_extra.encoding }
    let content := dictSet content content_type media_type
    let components_schemas := (getObjFields schema "$defs").foldl
      (fun cs p => dictSet cs p.1 p.2) components_schemas
    (content, components_schemas)

/-- Embeds utils.parse_body: apply _parse_body to each union member in order,
or to the single model. -/
def parse_body (body : BodyAnn) :
    List (String × MediaType) × List (String × JValue) :=
  match body with
  | .union members => members.foldl parseBodyStep ([], [])
  | .model m => parseBodyStep ([], []) m

/-- The media type _parse_body stores for a model under its content type:
for a non-JSON content type the raw content_schema (default type string);
for a JSON content type a $ref to the normalized title plus any
example/examples/encoding from openapi_extra. -/
def bodyMediaFor (m : PyModel) : MediaType :=
  let openapi_extra := m.openapi_extra
  if !is_application_json (bodyContentType m) then
    { schema := contentSchemaOrDefault openapi_extra }
  else
    let media_type : MediaType := { schema := refSchema (bodyNormalizedTitle m) }
    if openapi_extra.isEmptyDict then media_type
    else { media_type with
            exampleVal := openapi_extra.exampleVal
            examples := openapi_extra.examples
            encoding := openapi_extra.encoding }

/-- A models.Response object as built by get_responses. -/
structure Response where
  description : Option JValue := none
  content : Option (List (String × MediaType)) := none
  headers : Option JValue := none
  links : Option JValue := none
deriving Repr, BEq, Inhabited

/-- Update the value stored under a key, when the key is present (the source
only reaches the corresponding assignments for keys it has created). -/
def dictModify {α : Type} (d : List (String × α)) (k : String) (f : α → α) :
    List (String × α) :=
  match dictGet d k with
  | some v => dictSet d k (f v)
  | none => d

/-- Shallow reading of a MediaType object from a user-supplied dict. -/
def mediaTypeOfJ (v : JValue) : MediaType :=
  match v with
  | .obj fields =>
      { schema := (dictGet fields "schema").getD .null
        exampleVal := dictGet fields "example"
        examples := dictGet fields "examples"
        encoding := dictGet fields "encoding" }
  | _ => { schema := .null }

/-- Response(**d) for a user-supplied response dict. -/
def responseOfDict (d : List (String × JValue)) : Response :=
  { description := dictGet d "description"
    content :=
      match dictGet d "content" with
      | some (.obj cs) => some (cs.map (fun p => (p.1, mediaTypeOfJ p.2)))
      | _ => none
    headers := dictGet d "headers"
    links := dictGet d "links" }

/-- Embeds the inner _parse_response closure of utils.get_responses, threading
the _responses and _schemas dictionaries it mutates.  For a non-JSON content
type the media type carries the raw content_schema and no schema is recorded;
for a JSON content type the media type is a $ref to the normalized
serialization-schema title, the schema is recorded under that name, and
$defs entries are recorded under their normalized names. -/
def parseResponseOne (key : String) (m : PyModel)
    (acc : List (String × Response) × List (String × JValue)) :
    List (String × Response) × List (String × JValue) :=
  let (resps, schemas) := acc
  let openapi_extra := m.openapi_extra
  let content_type := openapi_extra.content_type.getD "application/json"
  if !is_application_json content_type then
    let media_type : MediaType := { schema := contentSchemaOrDefault openapi_extra }
    let resps :=
      match dictGet resps key with
      | some r => dictSet resps key
          { r with content := some (dictSet (r.content.getD []) content_type media_type) }
      | none => dictSet resps key
          { description := some (.str (httpStatusPhrase key))
            content := some [(content_type, media_type)] }
    (resps, schemas)
  else
    let schema := get_model_schema m .serialization
    let name := normalize_name (schemaTitleOrName schema m.name)
    let media_type : MediaType := { schema := refSchema name }
    let media_type :=
      if openapi_extra.isEmptyDict then media_type
      else { media_type with
              exampleVal := openapi_extra.exampleVal
              examples := openapi_extra.examples
              encoding := openapi_extra.encoding }
    let resps :=
      match dictGet resps key with
      | some r => dictSet resps key
          { r with content := some (dictSet (r.content.getD []) content_type media_type) }
      | none => dictSet resps key
          { description := some (.str (httpStatusPhrase key))
            content := some [(content_type, media_type)] }
    let schemas := dictSet schemas name (.obj schema)
    let schemas := (getObjFields schema "$defs").foldl
      (fun s p => dictSet s (normalize_name p.1) p.2) schemas
    (resps, schemas)

/-- A response value of the responses dict: None, a plain dict, a model, or a
union of models. -/
inductive RespCore where
  | rnone
  | rdict (d : List (String × JValue))
  | rmodel (m : PyModel)
  | runion (members : List PyModel)
deriving Repr, BEq, Inhabited

/-- A responses entry: either a direct value, or a dict carrying a "model"
key together with optional description/headers/links. -/
inductive RespAnn where
  | plain (r : RespCore)
  | meta (model : RespCore) (description headers links : Option JValue)
deriving Repr, BEq, Inhabited

/-- Embeds utils.get_responses: fold the responses dict into the _responses
and _schemas accumulators, apply the per-entry description/headers/links
overrides, then update components_schemas with _schemas and store _responses
on the operation. -/
def foldResponsesEntry (acc : List (String × Response) × List (String × JValue))
    (kr : String × RespAnn) :
    List (String × Response) × List (String × JValue) :=
  let (key, response) := kr
  let extracted : RespCore × Option JValue × Option JValue × Option JValue :=
    match response with
    | .plain r => (r, none, none, none)
    | .meta mdl dsc hdr lnk => (mdl, dsc, hdr, lnk)
  let (response_model, response_description, response_headers, response_links) :=
    extracted
  let acc :=
    match response_model with
    | .rnone =>
        (dictSet acc.1 key { description := some (.str (httpStatusPhrase key)) }, acc.2)
    | .rdict d =>
        let d := dictSet d "description"
          ((dictGet d "description").getD (.str (httpStatusPhrase key)))
        (dictSet acc.1 key (responseOfDict d), acc.2)
    | .runion members => members.foldl (fun a m => parseResponseOne key m a) acc
    | .rmodel m => parseResponseOne key m acc
  let acc :=
    match response_description with
    | some dsc => (dictModify acc.1 key (fun r => { r with description := some dsc }), acc.2)
    | none => acc
  let acc :=
    match response_headers with
    | some h => (dictModify acc.1 key (fun r => { r with headers := some h }), acc.2)
    | none => acc
  match response_links with
  | some l => (dictModify acc.1 key (fun r => { r with links := some l }), acc.2)
  | none => acc

/-- A models.RequestBody object. -/
structure RequestBody where
  content : List (String × MediaType)
  description : Option String := none
  required : Option Bool := none
deriving Repr, BEq, Inhabited

/-- The slice of a models.Operation object that the translation layer
reads and writes. -/
structure Operation where
  tags : Option (List String) := none
  parameters : Option (List Parameter) := none
  requestBody : Option RequestBody := none
  responses : Option (List (String × Response)) := none
deriving Repr, BEq, Inhabited

/-- Embeds utils.get_responses: fold every responses entry, then update the
components_schemas dict with the collected _schemas and set the operation's
responses to the collected _responses. -/
def get_responses (responses : List (String × RespAnn))
    (components_schemas : List (String × JValue)) (operation : Operation) :
    List (String × JValue) × Operation :=
  let st := responses.foldl foldResponsesEntry ([], [])
  (dictUpdate components_schemas st.2, { operation with responses := some st.1 })

/-- A type annotation on a view function's parameter: a single pydantic model,
a union of models, or a RawModel (carrying its mimetypes list). -/
inductive Ann where
  | model (m : PyModel)
  | union (members : List PyModel)
  | raw (mimetypes : List String)
deriving Repr, BEq, Inhabited

/-- get_model_schema's assert: the annotation must be a single BaseModel
subclass. -/
def asModel : Ann → Except String PyModel
  | .model m => .ok m
  | _ => .error "is invalid pydantic.BaseModel"

/-- The tuple of the seven annotations parse_parameters returns. -/
abbrev ParametersTuple :=
  Option Ann × Option Ann × Option Ann × Option Ann × Option Ann × Option Ann × Option Ann

/-- Embeds utils.parse_parameters.  The function's type hints are the
annotations dictionary; the header/cookie/path/query/form/body/raw entries
are read under exactly those names.  With doc_ui=False the annotations are
returned at once and neither the operation nor components_schemas changes.
Otherwise each present annotation is parsed, the parameter list and request
body are stored on the operation, and the component schemas are merged into
components_schemas.  Python-level failures (asserts, attribute errors on a
malformed annotation) are the error case. -/
def parse_parameters (func : List (String × Ann))
    (components_schemas : List (String × JValue)) (operation : Operation)
    (request_body_description : Option String := none)
    (request_body_required : Option Bool := some true)
    (doc_ui : Bool := true) :
    Except String (ParametersTuple × List (String × JValue) × Operation) :=
  let header := dictGet func "header"
  let cookie := dictGet func "cookie"
  let path := dictGet func "path"
  let query := dictGet func "query"
  let form := dictGet func "form"
  let body := dictGet func "body"
  let raw := dictGet func "raw"
  if doc_ui = false then
    .ok ((header, cookie, path, query, form, body, raw), components_schemas, operation)
  else do
    let parameters : List Parameter := []
    let cs := components_schemas
    let (parameters, cs) ←
      match header with
      | some a => do
          let m ← asModel a
          let (ps, c2) := parse_header m
          pure (parameters ++ ps, dictUpdate cs c2)
      | none => pure (parameters, cs)
    let (parameters, cs) ←
      match cookie with
      | some a => do
          let m ← asModel a
          let (ps, c2) := parse_cookie m
          pure (parameters ++ ps, dictUpdate cs c2)
      | none => pure (parameters, cs)
    let (parameters, cs) ←
      match path with
      | some a => do
          let m ← asModel a
          let (ps, c2) := parse_path m
          pure (parameters ++ ps, dictUpdate cs c2)
      | none => pure (parameters, cs)
    let (parameters, cs) ←
      match query with
      | some a => do
          let m ← asModel a
          let (ps, c2) := parse_query m
          pure (parameters ++ ps, dictUpdate cs c2)
      | none => pure (parameters, cs)
    let (operation, cs) ←
      match form with
      | some a => do
          let m ← asModel a
          let (content, c2) ← parse_form m
          let rb : RequestBody := { content := content, required := some true }
          let rb :=
            match request_body_description with
            | some d => { rb with description := some d }
            | none => rb
          let rb := { rb with required := request_body_required }
          pure ({ operation with requestBody := some rb }, dictUpdate cs c2)
      | none => pure (operation, cs)
    let (operation, cs) ←
      match body with
      | some a => do
          let b : BodyAnn ←
            match a with
            | .model m => pure (BodyAnn.model m)
            | .union members => pure (BodyAnn.union members)
            | .raw _ => Except.error "is invalid pydantic.BaseModel"
          let (content, c2) := parse_body b
          let rb : RequestBody := { content := content, required := some true }
          let rb :=
            match request_body_description with
            | some d => { rb with description := some d }
            | none => rb
          let rb := { rb with required := request_body_required }
          pure ({ operation with requestBody := some rb }, dictUpdate cs c2)
      | none => pure (operation, cs)
    let operation ←
      match raw with
      | some (.raw mimetypes) =>
          let content := mimetypes.foldl
            (fun con mt =>
              if is_application_json mt then
                dictSet con mt { schema := .obj [("type", .str "object")] }
              else
                dictSet con mt { schema := .obj [("type", .str DataTypeSTRING)] }) []
          let rb : RequestBody := { content := content }
          let rb :=
            match request_body_description with
            | some d => { rb with description := some d }
            | none => rb
          let rb := { rb with required := request_body_required }
          pure { operation with requestBody := some rb }
      | some _ => Except.error "raw annotation without mimetypes"
      | none => pure operation
    let operation :=
      if parameters.isEmpty then operation
      else { operation with parameters := some parameters }
    pure ((header, cookie, path, query, form, body, raw), cs, operation)

/-- Auxiliary length bound used for termination of the regex pass. -/
theorem dropWhileLen {α : Type} (p : α → Bool) :
    ∀ l : List α, (List.dropWhile p l).length ≤ l.length := by
  intro l
  induction l with
  | nil => simp
  | cons x xs ih =>
      by_cases h : p x = true
      · rw [List.dropWhile_cons_of_pos h]; exact Nat.le_succ_of_le ih
      · rw [List.dropWhile_cons_of_neg h]

/-- Embeds re.sub(r"<([^<:]+:)?", "{", s) at the character level.  At each
'<' the regular expression consumes, in addition, the maximal non-empty run
of characters other than '<' and ':' when that run is followed by ':'
(together with that ':'); every match is replaced by a single brace. -/
def uriSubPass : List Char → List Char
  | [] => []
  | c :: cs =>
    if c = '<' then
      if h : ¬(cs.takeWhile (fun d => !(d = '<' || d = ':'))).isEmpty ∧
          (cs.dropWhile (fun d => !(d = '<' || d = ':'))).head? = some ':' then
        '{' :: uriSubPass (cs.dropWhile (fun d => !(d = '<' || d = ':'))).tail
      else '{' :: uriSubPass cs
    else
      c :: uriSubPass cs
termination_by l => l.length
decreasing_by
  all_goals simp only [List.length_cons]
  all_goals
    first
      | omega
      | (have hle := dropWhileLen (fun d => !(d = '<' || d = ':')) cs
         have hne : (cs.dropWhile (fun d => !(d = '<' || d = ':'))) ≠ [] := by
           intro hnil
           rw [hnil] at h
           simp at h
         have hlen : 1 ≤ (cs.dropWhile (fun d => !(d = '<' || d = ':'))).length := by
           cases he : cs.dropWhile (fun d => !(d = '<' || d = ':')) with
           | nil => exact absurd he hne
           | cons a as => simp
         simp only [List.length_tail]
         omega)

/-- Embeds .replace(">", "}"): every '>' becomes '}'. -/
def replaceGtPass (l : List Char) : List Char :=
  l.map (fun c => if c = '>' then '}' else c)

/-- The uri computed from a Flask rule at openapi.py line 398:
re.sub(r"<([^<:]+:)?", "{", rule).replace(">", "}"). -/
def uriOfRule (rule : String) : String :=
  String.mk (replaceGtPass (uriSubPass rule.toList))

/-- Python s.rstrip("/"). -/
def rstripSlash (s : String) : String :=
  String.mk ((s.toList.reverse.dropWhile (fun c => c = '/')).reverse)

/-- Python s.lstrip("/"). -/
def lstripSlash (s : String) : String :=
  String.mk (s.toList.dropWhile (fun c => c = '/'))

/-- Embeds utils.parse_rule: merge the url prefix, strip the trailing slash
unless the rule ends with one, then rewrite the parameter markers. -/
def parse_rule (rule : String) (prefix_url : Option String := none) : String :=
  let trail_slash := rule.endsWith "/"
  let uri :=
    match prefix_url with
    | some p => if p.isEmpty then rule else rstripSlash p ++ "/" ++ lstripSlash rule
    | none => rule
  let uri := if !trail_slash then rstripSlash uri else uri
  uriOfRule uri

/-- The slice of a models.PathItem object parse_method writes. -/
structure PathItem where
  get : Option Operation := none
  post : Option Operation := none
  put : Option Operation := none
  patch : Option Operation := none
  delete : Option Operation := none
deriving Repr, BEq, Inhabited

/-- Embeds utils.parse_method: store the operation on the PathItem under the
uri, creating the PathItem when the uri is new. -/
def parse_method (uri method : String) (paths : List (String × PathItem))
    (operation : Operation) : List (String × PathItem) :=
  if method = "GET" then
    match dictGet paths uri with
    | none => dictSet paths uri { get := some operation }
    | some item => dictSet paths uri { item with get := some operation }
  else if method = "POST" then
    match dictGet paths uri with
    | none => dictSet paths uri { post := some operation }
    | some item => dictSet paths uri { item with post := some operation }
  else if method = "PUT" then
    match dictGet paths uri with
    | none => dictSet paths uri { put := some operation }
    | some item => dictSet paths uri { item with put := some operation }
  else if method = "PATCH" then
    match dictGet paths uri with
    | none => dictSet paths uri { patch := some operation }
    | some item => dictSet paths uri { item with patch := some operation }
  else if method = "DELETE" then
    match dictGet paths uri with
    | none => dictSet paths uri { delete := some operation }
    | some item => dictSet paths uri { item with delete := some operation }
  else paths

/-- A Python value that is either an int or a str (the type of the
validation_error_status constructor argument and attribute). -/
inductive PyVal where
  | intVal (n : Int)
  | strVal (s : String)
deriving Repr, BEq, Inhabited

/-- Python str(v). -/
def pyStr : PyVal → String
  | .intVal n => toString n
  | .strVal s => s

/-- The slice of a Flask response object make_validation_error_response
builds: body, Content-Type header, status code. -/
structure FlaskResponseModel where
  body : String
  contentTypeHeader : String
  status_code : PyVal
deriving Repr, BEq, Inhabited

/-- Embeds utils.make_validation_error_response: body is e.json(), the
Content-Type header is application/json, and the status code is
getattr(current_app, "validation_error_status", 422), given here as the
optional attribute value of the current application. -/
def make_validation_error_response (e_json : String)
    (current_app_validation_error_status : Option PyVal) : FlaskResponseModel :=
  { body := e_json
    contentTypeHeader := "application/json"
    status_code := current_app_validation_error_status.getD (.intVal 422) }

/-- Modelled from the spec: the ValidationErrorResponseModel class is imported
by openapi.py from the package root, which does not define it in the given
sources; only its __name__ (used as components key and in the $ref) and its
schema dict (a black-box pydantic schema) are needed. -/
def ValidationErrorResponseModel_name : String := "ValidationErrorResponseModel"

/-- Modelled from the spec: the ValidationErrorResponseModel schema dict, a
black-box pydantic schema value. -/
def ValidationErrorResponseModel_schema : List (String × JValue) :=
  [("title", .str "ValidationErrorResponseModel"), ("type", .str "object")]

/-- The slice of the OpenAPI application state that api_doc reads: the fixed
openapi_version, the serialized info, the openapi_extensions dict, the
stringified validation_error_status, and the paths and component schemas
collected from route registration (serialized form). -/
structure AppState where
  openapi_version : String
  info : List (String × JValue)
  openapi_extensions : List (String × JValue)
  validation_error_status : String
  paths : List (String × JValue)
  components_schemas : List (String × JValue)
deriving Repr, BEq, Inhabited

/-- Embeds the relevant assignments of OpenAPI.__init__: openapi_version is
the literal "3.0.3" (no constructor argument can set it), openapi_extensions
defaults to the empty dict, validation_error_status is stored stringified,
and paths and components start empty. -/
def OpenAPI_init (info : List (String × JValue))
    (openapi_extensions : Option (List (String × JValue)) := none)
    (validation_error_status : PyVal := .intVal 422) : AppState :=
  { openapi_version := "3.0.3"
    info := info
    openapi_extensions := openapi_extensions.getD []
    validation_error_status := pyStr validation_error_status
    paths := []
    components_schemas := [] }

/-- The validation-error response entry api_doc inserts for an operation. -/
def validationErrorEntry (phrase : String) : JValue :=
  .obj [("description", .str phrase),
        ("content", .obj [("application/json", .obj [("schema",
          .obj [("type", .str "array"),
                ("items", .obj [("$ref",
                  .str (OPENAPI3_REF_PREFIX ++ "/" ++ ValidationErrorResponseModel_name))])])])])]

/-- Embeds the per-operation body of the api_doc loop: ensure a responses
dict exists, skip the operation when it has a truthy entry under the
validation_error_status key, and otherwise insert the standard entry (the
phrase lookup HTTP_STATUS[status] raises KeyError for unknown statuses). -/
def processOperation (vstatus : String) (op : List (String × JValue)) :
    Except String (List (String × JValue)) :=
  let op :=
    match dictGet op "responses" with
    | some r => if truthy r then op else dictSet op "responses" (.obj [])
    | none => dictSet op "responses" (.obj [])
  match dictGet op "responses" with
  | some (JValue.obj rd) =>
      if truthy ((dictGet rd vstatus).getD .null) then .ok op
      else
        match dictGet HTTP_STATUS vstatus with
        | some phrase =>
            .ok (dictSet op "responses" (.obj (dictSet rd vstatus (validationErrorEntry phrase))))
        | none => .error "KeyError"
  | _ => .error "responses is not a dict"

/-- The api_doc loop over one serialized path item (every value must be an
operation dict). -/
def processPathItem (vstatus : String) :
    List (String × JValue) → Except String (List (String × JValue))
  | [] => .ok []
  | (meth, op) :: rest =>
      match op with
      | .obj opd =>
          match processOperation vstatus opd with
          | .ok opd2 =>
              match processPathItem vstatus rest with
              | .ok rest2 => .ok ((meth, .obj opd2) :: rest2)
              | .error e => .error e
          | .error e => .error e
      | _ => .error "operation is not a dict"

/-- The api_doc loop over the serialized paths dict (every value must be a
path-item dict). -/
def processPaths (vstatus : String) :
    List (String × JValue) → Except String (List (String × JValue))
  | [] => .ok []
  | (rule, item) :: rest =>
      match item with
      | .obj itemd =>
          match processPathItem vstatus itemd with
          | .ok item2 =>
              match processPaths vstatus rest with
              | .ok rest2 => .ok ((rule, .obj item2) :: rest2)
              | .error e => .error e
          | .error e => .error e
      | _ => .error "path item is not a dict"

/-- The serialized specification before the api_doc post-passes: the
openapi/info/paths/components dict, with ValidationErrorResponseModel added
to the component schemas (the servers, tags and externalDocs fields are None
here and excluded by exclude_none). -/
def apiSpecBase (st : AppState) : List (String × JValue) :=
  [("openapi", .str st.openapi_version),
   ("info", .obj st.info),
   ("paths", .obj st.paths),
   ("components", .obj [("schemas",
     .obj (dictSet st.components_schemas ValidationErrorResponseModel_name
       (.obj ValidationErrorResponseModel_schema)))])]

/-- Embeds OpenAPI.api_doc: build the serialized specification, update it
with openapi_extensions, then run the validation-error post-pass over every
operation of every path. -/
def api_doc (st : AppState) : Except String (List (String × JValue)) :=
  let spec_json := dictUpdate (apiSpecBase st) st.openapi_extensions
  match dictGet spec_json "paths" with
  | some (.obj pd) =>
      match processPaths st.validation_error_status pd with
      | .ok pd2 => .ok (dictSet spec_json "paths" (.obj pd2))
      | .error e => .error e
  | some _ => .error "paths is not a dict"
  | none => .error "KeyError: paths"

/-- The keyword-only parameter names of OpenAPI._do_decorator
(openapi.py lines 313-332). -/
def openapiDoDecoratorParams : List String :=
  ["tags", "summary", "description", "external_docs", "operation_id",
   "extra_form", "extra_body", "responses", "extra_responses", "deprecated",
   "security", "servers", "openapi_extensions", "doc_ui", "method"]

/-- The keyword arguments _Scaffold.get passes to self._do_decorator. -/
def scaffoldGetCallKeywords : List String :=
  ["tags", "summary", "description", "responses", "extra_responses",
   "body_examples", "security", "deprecated", "operation_id", "doc_ui", "method"]

/-- The keyword arguments _Scaffold.post passes to self._do_decorator. -/
def scaffoldPostCallKeywords : List String :=
  ["tags", "summary", "description", "responses", "extra_responses",
   "body_examples", "security", "deprecated", "operation_id", "doc_ui", "method"]

/-- The keyword arguments _Scaffold.put passes to self._do_decorator. -/
def scaffoldPutCallKeywords : List String :=
  ["tags", "summary", "description", "responses", "extra_responses",
   "body_examples", "security", "deprecated", "operation_id", "doc_ui", "method"]

/-- The keyword arguments _Scaffold.delete passes to self._do_decorator. -/
def scaffoldDeleteCallKeywords : List String :=
  ["tags", "summary", "description", "responses", "extra_responses",
   "body_examples", "security", "deprecated", "operation_id", "doc_ui", "method"]

/-- The keyword arguments _Scaffold.patch passes to self._do_decorator. -/
def scaffoldPatchCallKeywords : List String :=
  ["tags", "summary", "description", "responses", "extra_responses",
   "body_examples", "security", "deprecated", "operation_id", "doc_ui", "method"]

/-- Python call semantics: a call with a keyword argument the callee does not
accept (and the callee takes no **kwargs, as _do_decorator does not) raises
TypeError before the body runs. -/
def callRaisesTypeError (acceptedParams passedKeywords : List String) : Bool :=
  passedKeywords.any (fun k => !acceptedParams.contains k)

/-- The number of components of the tuple OpenAPI._do_decorator returns
(header, cookie, path, query, form, body). -/
def openapiDoDecoratorReturnArity : Nat := 6

/-- The number of names the scaffold decorators unpack from the
_do_decorator result (header, cookie, path, query, form, body,
combine_responses). -/
def scaffoldDecoratorUnpackArity : Nat := 7

/-- C3: every scaffold decorator (get, post, put, delete, patch) passes the
body_examples keyword to self._do_decorator and unpacks seven values from
the result, while OpenAPI._do_decorator accepts no body_examples parameter
and returns a six-tuple; a call with an unexpected keyword argument raises
TypeError, so applying any of these decorators against the given OpenAPI
implementation fails instead of registering the route. -/
theorem C3_scaffold_decorators_incompatible :
    ("body_examples" ∈ scaffoldGetCallKeywords ∧
      "body_examples" ∉ openapiDoDecoratorParams) ∧
    callRaisesTypeError openapiDoDecoratorParams scaffoldGetCallKeywords = true ∧
    callRaisesTypeError openapiDoDecoratorParams scaffoldPostCallKeywords = true ∧
    callRaisesTypeError openapiDoDecoratorParams scaffoldPutCallKeywords = true ∧
    callRaisesTypeError openapiDoDecoratorParams scaffoldDeleteCallKeywords = true ∧
    callRaisesTypeError openapiDoDecoratorParams scaffoldPatchCallKeywords = true ∧
    scaffoldDecoratorUnpackArity = 7 ∧
    openapiDoDecoratorReturnArity = 6 ∧
    scaffoldDecoratorUnpackArity ≠ openapiDoDecoratorReturnArity := by
  decide

/-- C6: make_validation_error_response returns a response whose body is the
error's JSON representation, whose Content-Type header is application/json,
and whose status code is the current application's validation_error_status
attribute when present, 422 (the int) otherwise; the OpenAPI constructor
stores its validation_error_status argument (default 422) stringified. -/
theorem C6_validation_error_response :
    (∀ (e_json : String) (attr : Option PyVal),
      (make_validation_error_response e_json attr).body = e_json ∧
      (make_validation_error_response e_json attr).contentTypeHeader =
        "application/json" ∧
      (make_validation_error_response e_json attr).status_code =
        attr.getD (.intVal 422)) ∧
    (∀ info ext v,
      (OpenAPI_init info ext v).validation_error_status = pyStr v) ∧
    pyStr (.intVal 422) = "422" :=
  ⟨fun _ _ => ⟨rfl, rfl, rfl⟩, fun _ _ _ => rfl, rfl⟩

/-- C10: with doc_ui=False, parse_parameters returns the seven annotations
read from the function's type hints under exactly the names header, cookie,
path, query, form, body and raw, and returns the components_schemas dict and
the operation unchanged. -/
theorem C10_parse_parameters_doc_ui_false (func : List (String × Ann))
    (components_schemas : List (String × JValue)) (operation : Operation)
    (rbd : Option String) (rbr : Option Bool) :
    parse_parameters func components_schemas operation rbd rbr false =
      .ok ((dictGet func "header", dictGet func "cookie", dictGet func "path",
            dictGet func "query", dictGet func "form", dictGet func "body",
            dictGet func "raw"), components_schemas, operation) :=
  rfl

/-- C9: parse_path marks every property as required unconditionally, while
parse_query, parse_header and parse_cookie mark a property required exactly
when its name is in the schema's required list. -/
theorem C9_required_flags (m : PyModel) :
    (∀ p ∈ (parse_path m).1, p.required = true) ∧
    (∀ p ∈ (parse_query m).1,
      p.required = jStrMem (schemaRequiredList (get_model_schema m)) p.name) ∧
    (∀ p ∈ (parse_header m).1,
      p.required = jStrMem (schemaRequiredList (get_model_schema m)) p.name) ∧
    (∀ p ∈ (parse_cookie m).1,
      p.required = jStrMem (schemaRequiredList (get_model_schema m)) p.name) := by
  refine ⟨?_, ?_, ?_, ?_⟩ <;>
    · intro p hp
      simp only [parse_path, parse_query, parse_header, parse_cookie,
        List.mem_map] at hp
      obtain ⟨q, hq, rfl⟩ := hp
      rfl

/-- A sample parameter model for the witnesses: a required id property and
an optional tag property. -/
def SampleParamsModel : PyModel :=
  { name := "SampleParams"
    validationSchema :=
      [("properties", .obj
          [("id", .obj [("title", .str "Id"), ("type", .str "integer")]),
           ("tag", .obj [("title", .str "Tag"), ("type", .str "string")])]),
       ("required", .arr [.str "id"]),
       ("title", .str "SampleParams"),
       ("type", .str "object")] }

/-- Witness for C9 at the sample model: the optional tag property is
required as a path parameter but not as a query parameter. -/
theorem C9_required_flags_witness :
    (mkParameter "path" true "tag"
      (JValue.obj [("title", JValue.str "Tag"), ("type", JValue.str "string")])).required
        = true ∧
    (mkParameter "query" false "tag"
      (JValue.obj [("title", JValue.str "Tag"), ("type", JValue.str "string")])).required
        = false :=
  ⟨(C9_required_flags SampleParamsModel).1 _ (List.Mem.tail _ (List.Mem.head _)),
   (C9_required_flags SampleParamsModel).2.1 _ (List.Mem.tail _ (List.Mem.head _))⟩

/-- C2: for a model whose openapi_extra declares a non-JSON content type,
_parse_body stores, under that content type and whatever the surrounding
state (any union position), a media type whose schema is the openapi_extra
content_schema (default {"type": "string"}) and leaves the component
schemas untouched; _parse_response does the same for a response model (any
responses state); consequently a single-model body parses to exactly that
content dict with empty component schemas, and get_responses on such a
response model leaves the given components_schemas unchanged. -/
theorem C2_non_json_content_type (m : PyModel) (key : String)
    (cs : List (String × JValue)) (op : Operation)
    (h : is_application_json (bodyContentType m) = false) :
    (∀ acc, parseBodyStep acc m =
      (dictSet acc.1 (bodyContentType m)
        { schema := contentSchemaOrDefault m.openapi_extra }, acc.2)) ∧
    (∀ acc, (parseResponseOne key m acc).2 = acc.2 ∧
      ∃ r, (parseResponseOne key m acc).1 = dictSet acc.1 key r ∧
        dictGet (r.content.getD []) (bodyContentType m) =
          some { schema := contentSchemaOrDefault m.openapi_extra }) ∧
    parse_body (.model m) =
      ([(bodyContentType m,
         { schema := contentSchemaOrDefault m.openapi_extra })], []) ∧
    (get_responses [(key, .plain (.rmodel m))] cs op).1 = cs ∧
    (get_responses [(key, .plain (.rmodel m))] cs op).2 =
      { op with responses := some [(key,
          { description := some (.str (httpStatusPhrase key))
            content := some [(bodyContentType m,
              { schema := contentSchemaOrDefault m.openapi_extra })] })] } := by
  have h' : is_application_json (m.openapi_extra.content_type.getD "application/json")
      = false := h
  refine ⟨?_, ?_, ?_, ?_, ?_⟩
  · intro acc
    obtain ⟨content, comps⟩ := acc
    simp [parseBodyStep, h', bodyContentType]
  · intro acc
    obtain ⟨resps, schemas⟩ := acc
    constructor
    · cases hr : dictGet resps key <;>
        simp [parseResponseOne, h', hr]
    · cases hr : dictGet resps key with
      | none =>
          refine ⟨{ description := some (.str (httpStatusPhrase key))
                    content := some [(bodyContentType m,
                      { schema := contentSchemaOrDefault m.openapi_extra })] },
            ?_, ?_⟩
          · simp [parseResponseOne, h', hr, bodyContentType]
          · simp [dictGet]
      | some r =>
          refine ⟨{ r with content := some (dictSet (r.content.getD [])
              (bodyContentType m)
              { schema := contentSchemaOrDefault m.openapi_extra }) }, ?_, ?_⟩
          · simp [parseResponseOne, h', hr, bodyContentType]
          · simp [dictGet_dictSet_self]
  · simp [parse_body, parseBodyStep, h', bodyContentType, dictSet]
  · simp [get_responses, foldResponsesEntry, parseResponseOne, h', dictGet,
      dictSet, dictUpdate]
  · simp [get_responses, foldResponsesEntry, parseResponseOne, h', bodyContentType,
      dictGet, dictSet, dictUpdate]

/-- The DogBody model of examples/multi_content_type.py: content type
application/vnd.dog+json. -/
def DogBody : PyModel :=
  { name := "DogBody"
    openapi_extra := { content_type := some "application/vnd.dog+json" }
    validationSchema :=
      [("properties", .obj
          [("a", .obj [("default", .null), ("title", .str "A"), ("type", .str "integer")]),
           ("b", .obj [("default", .null), ("title", .str "B"), ("type", .str "string")])]),
       ("title", .str "DogBody"), ("type", .str "object")]
    serializationSchema :=
      [("properties", .obj
          [("a", .obj [("default", .null), ("title", .str "A"), ("type", .str "integer")]),
           ("b", .obj [("default", .null), ("title", .str "B"), ("type", .str "string")])]),
       ("title", .str "DogBody"), ("type", .str "object")] }

/-- The CatBody model of examples/multi_content_type.py: content type
application/vnd.cat+json. -/
def CatBody : PyModel :=
  { name := "CatBody"
    openapi_extra := { content_type := some "application/vnd.cat+json" }
    validationSchema :=
      [("properties", .obj
          [("c", .obj [("default", .null), ("title", .str "C"), ("type", .str "integer")]),
           ("d", .obj [("default", .null), ("title", .str "D"), ("type", .str "string")])]),
       ("title", .str "CatBody"), ("type", .str "object")]
    serializationSchema :=
      [("properties", .obj
          [("c", .obj [("default", .null), ("title", .str "C"), ("type", .str "integer")]),
           ("d", .obj [("default", .null), ("title", .str "D"), ("type", .str "string")])]),
       ("title", .str "CatBody"), ("type", .str "object")] }

/-- The ContentTypeModel model of examples/multi_content_type.py: content
type text/csv, no properties. -/
def ContentTypeModel : PyModel :=
  { name := "ContentTypeModel"
    openapi_extra := { content_type := some "text/csv" }
    validationSchema :=
      [("properties", .obj []), ("title", .str "ContentTypeModel"),
       ("type", .str "object")]
    serializationSchema :=
      [("properties", .obj []), ("title", .str "ContentTypeModel"),
       ("type", .str "object")] }

/-- Witness for C2 at ContentTypeModel (text/csv): the body content is the
default string schema under text/csv and no component schema is recorded. -/
theorem C2_non_json_content_type_witness :
    is_application_json "text/csv" = false ∧
    parse_body (.model ContentTypeModel) =
      ([("text/csv",
         { schema := JValue.obj [("type", JValue.str "string")] })], []) ∧
    (get_responses [("200", .plain (.rmodel ContentTypeModel))] [] {}).1 = [] ∧
    (parseBodyStep
      ([("application/vnd.dog+json", { schema := refSchema "DogBody" })],
       [("DogBody", JValue.obj (get_model_schema DogBody))])
      ContentTypeModel).2 =
      [("DogBody", JValue.obj (get_model_schema DogBody))] :=
  ⟨by decide,
   (C2_non_json_content_type ContentTypeModel "200" [] {} (by decide)).2.2.1,
   (C2_non_json_content_type ContentTypeModel "200" [] {} (by decide)).2.2.2.1,
   congrArg Prod.snd
     ((C2_non_json_content_type ContentTypeModel "200" [] {} (by decide)).1
       ([("application/vnd.dog+json", { schema := refSchema "DogBody" })],
        [("DogBody", JValue.obj (get_model_schema DogBody))]))⟩

theorem hasKey_foldl_dictSet_mono {α : Type} (l : List (String × α))
    (acc : List (String × α)) (k : String) (h : hasKey acc k = true) :
    hasKey (l.foldl (fun cs p => dictSet cs p.1 p.2) acc) k = true := by
  induction l generalizing acc with
  | nil => exact h
  | cons p rest ih => exact ih _ (hasKey_dictSet_of _ _ _ _ h)

theorem parseBodyStep_content (acc : List (String × MediaType) × List (String × JValue))
    (m : PyModel) :
    (parseBodyStep acc m).1 = dictSet acc.1 (bodyContentType m) (bodyMediaFor m) := by
  obtain ⟨content, comps⟩ := acc
  by_cases hj : is_application_json (m.openapi_extra.content_type.getD "application/json")
      = true
  · simp [parseBodyStep, bodyMediaFor, bodyContentType, bodyNormalizedTitle, hj]
  · simp only [Bool.not_eq_true] at hj
    simp [parseBodyStep, bodyMediaFor, bodyContentType, hj]

theorem parseBodyStep_comps_mono (acc : List (String × MediaType) × List (String × JValue))
    (m : PyModel) (k : String) (h : hasKey acc.2 k = true) :
    hasKey (parseBodyStep acc m).2 k = true := by
  obtain ⟨content, comps⟩ := acc
  by_cases hj : is_application_json (m.openapi_extra.content_type.getD "application/json")
      = true
  · simp only [parseBodyStep, hj, Bool.not_true, Bool.false_eq_true, if_false]
    exact hasKey_foldl_dictSet_mono _ _ _ (hasKey_dictSet_of _ _ _ _ h)
  · simp only [Bool.not_eq_true] at hj
    simpa [parseBodyStep, hj] using h

theorem parseBodyStep_comps_adds (acc : List (String × MediaType) × List (String × JValue))
    (m : PyModel) (hj : is_application_json (bodyContentType m) = true) :
    hasKey (parseBodyStep acc m).2 (bodyNormalizedTitle m) = true := by
  obtain ⟨content, comps⟩ := acc
  have hj' : is_application_json (m.openapi_extra.content_type.getD "application/json")
      = true := hj
  simp only [parseBodyStep, hj', Bool.not_true, Bool.false_eq_true, if_false]
  refine hasKey_foldl_dictSet_mono _ _ _ ?_
  simp [hasKey, bodyNormalizedTitle, dictGet_dictSet_self]

theorem foldl_parseBodyStep_content_mono (ms : List PyModel)
    (acc : List (String × MediaType) × List (String × JValue)) (k : String)
    (h : hasKey acc.1 k = true) :
    hasKey (ms.foldl parseBodyStep acc).1 k = true := by
  induction ms generalizing acc with
  | nil => exact h
  | cons m rest ih =>
      exact ih _ (by rw [parseBodyStep_content]; exact hasKey_dictSet_of _ _ _ _ h)

theorem foldl_parseBodyStep_comps_mono (ms : List PyModel)
    (acc : List (String × MediaType) × List (String × JValue)) (k : String)
    (h : hasKey acc.2 k = true) :
    hasKey (ms.foldl parseBodyStep acc).2 k = true := by
  induction ms generalizing acc with
  | nil => exact h
  | cons m rest ih => exact ih _ (parseBodyStep_comps_mono _ _ _ h)

theorem foldl_parseBodyStep_content_untouched (ms : List PyModel)
    (acc : List (String × MediaType) × List (String × JValue)) (k : String)
    (h : ∀ m ∈ ms, bodyContentType m ≠ k) :
    dictGet (ms.foldl parseBodyStep acc).1 k = dictGet acc.1 k := by
  induction ms generalizing acc with
  | nil => rfl
  | cons m rest ih =>
      have h1 : bodyContentType m ≠ k := h m (by simp)
      have h2 := ih (parseBodyStep acc m) (fun q hq => h q (by simp [hq]))
      rw [List.foldl_cons] at *
      rw [h2, parseBodyStep_content]
      exact dictGet_dictSet_ne _ _ _ _ (Ne.symm h1)

/-- C1: parse_body on a union of models parses every member: the content
dict has an entry under every member's declared content type, every member
with a JSON content type has a component schema recorded under its
normalized title, and when the members' content types are pairwise distinct
the entry under each member's content type is exactly that member's media
type (for JSON members a $ref to the normalized title). -/
theorem C1_union_body (members : List PyModel) :
    (∀ m ∈ members,
      hasKey (parse_body (.union members)).1 (bodyContentType m) = true) ∧
    (∀ m ∈ members, is_application_json (bodyContentType m) = true →
      hasKey (parse_body (.union members)).2 (bodyNormalizedTitle m) = true) ∧
    ((members.map bodyContentType).Nodup →
      ∀ m ∈ members,
        dictGet (parse_body (.union members)).1 (bodyContentType m) =
          some (bodyMediaFor m)) := by
  refine ⟨?_, ?_, ?_⟩
  · suffices hgen : ∀ (ms : List PyModel) acc, ∀ m ∈ ms,
        hasKey (ms.foldl parseBodyStep acc).1 (bodyContentType m) = true by
      intro m hm
      exact hgen members ([], []) m hm
    intro ms
    induction ms with
    | nil => intro acc m hm; cases hm
    | cons m0 rest ih =>
        intro acc m hm
        rw [List.foldl_cons]
        rcases List.mem_cons.mp hm with h | h
        · subst h
          refine foldl_parseBodyStep_content_mono _ _ _ ?_
          rw [parseBodyStep_content]
          simp [hasKey, dictGet_dictSet_self]
        · exact ih _ m h
  · suffices hgen : ∀ (ms : List PyModel) acc, ∀ m ∈ ms,
        is_application_json (bodyContentType m) = true →
        hasKey (ms.foldl parseBodyStep acc).2 (bodyNormalizedTitle m) = true by
      intro m hm hj
      exact hgen members ([], []) m hm hj
    intro ms
    induction ms with
    | nil => intro acc m hm; cases hm
    | cons m0 rest ih =>
        intro acc m hm hj
        rw [List.foldl_cons]
        rcases List.mem_cons.mp hm with h | h
        · subst h
          exact foldl_parseBodyStep_comps_mono _ _ _
            (parseBodyStep_comps_adds _ _ hj)
        · exact ih _ m h hj
  · suffices hgen : ∀ (ms : List PyModel) acc,
        (ms.map bodyContentType).Nodup → ∀ m ∈ ms,
        dictGet (ms.foldl parseBodyStep acc).1 (bodyContentType m) =
          some (bodyMediaFor m) by
      intro hnd m hm
      exact hgen members ([], []) hnd m hm
    intro ms
    induction ms with
    | nil => intro acc _ m hm; cases hm
    | cons m0 rest ih =>
        intro acc hnd m hm
        rw [List.map_cons, List.nodup_cons] at hnd
        rw [List.foldl_cons]
        rcases List.mem_cons.mp hm with h | h
        · subst h
          have hrest : ∀ q ∈ rest, bodyContentType q ≠ bodyContentType m := by
            intro q hq heq
            exact hnd.1 (heq ▸ List.mem_map_of_mem bodyContentType hq)
          rw [foldl_parseBodyStep_content_untouched rest _ _ hrest,
            parseBodyStep_content]
          exact dictGet_dictSet_self _ _ _
        · exact ih _ hnd.2 m h

/-- Witness for C1 at the union of examples/multi_content_type.py: every
member's content type appears, the JSON members DogBody and CatBody are
registered under their titles, and the cat entry is the $ref media type. -/
theorem C1_union_body_witness :
    hasKey (parse_body (.union [DogBody, CatBody, ContentTypeModel])).1
      "application/vnd.dog+json" = true ∧
    hasKey (parse_body (.union [DogBody, CatBody, ContentTypeModel])).1
      "text/csv" = true ∧
    hasKey (parse_body (.union [DogBody, CatBody, ContentTypeModel])).2
      "DogBody" = true ∧
    dictGet (parse_body (.union [DogBody, CatBody, ContentTypeModel])).1
      "application/vnd.cat+json" = some { schema := refSchema "CatBody" } :=
  ⟨(C1_union_body _).1 DogBody (List.Mem.head _),
   (C1_union_body _).1 ContentTypeModel
     (List.Mem.tail _ (List.Mem.tail _ (List.Mem.head _))),
   (C1_union_body _).2.1 DogBody (List.Mem.head _) (by decide),
   (C1_union_body _).2.2 (by decide) CatBody (List.Mem.tail _ (List.Mem.head _))⟩

theorem dictGet_none_forall {α : Type} (d : List (String × α)) (k : String)
    (h : dictGet d k = none) : ∀ p ∈ d, p.1 ≠ k := by
  induction d with
  | nil => intro p hp; cases hp
  | cons q rest ih =>
      obtain ⟨a, b⟩ := q
      by_cases hq : a = k
      · simp [dictGet, hq] at h
      · intro p hp
        rcases List.mem_cons.mp hp with rfl | hp2
        · exact hq
        · have h2 : dictGet rest k = none := by simpa [dictGet, hq] using h
          exact ih h2 p hp2

theorem api_doc_ok_shape (st : AppState) (d : List (String × JValue))
    (hd : api_doc st = .ok d) :
    ∃ pd pd2,
      dictGet (dictUpdate (apiSpecBase st) st.openapi_extensions) "paths" =
        some (.obj pd) ∧
      processPaths st.validation_error_status pd = .ok pd2 ∧
      d = dictSet (dictUpdate (apiSpecBase st) st.openapi_extensions) "paths"
        (.obj pd2) := by
  unfold api_doc at hd
  simp only [] at hd
  cases hpm : dictGet (dictUpdate (apiSpecBase st) st.openapi_extensions) "paths" with
  | none => rw [hpm] at hd; cases hd
  | some v =>
      cases v with
      | obj pd =>
          rw [hpm] at hd
          simp only [] at hd
          cases hpp : processPaths st.validation_error_status pd with
          | error e =>
              rw [hpp] at hd
              cases hd
          | ok pd2 =>
              rw [hpp] at hd
              simp only [] at hd
              cases hd
              exact ⟨pd, pd2, rfl, hpp, rfl⟩
      | null => rw [hpm] at hd; cases hd
      | boolean b => rw [hpm] at hd; cases hd
      | num n => rw [hpm] at hd; cases hd
      | str s => rw [hpm] at hd; cases hd
      | arr items => rw [hpm] at hd; cases hd

/-- C5 (amended): the constructor always sets openapi_version to "3.0.3" and
no constructor argument changes it, and the openapi field of the api_doc
result is "3.0.3" whenever openapi_extensions carries no "openapi" key; an
"openapi" extension key overwrites the field (the spec_json.update call). -/
theorem C5_openapi_version (st : AppState) (d : List (String × JValue))
    (hv : st.openapi_version = "3.0.3")
    (he : dictGet st.openapi_extensions "openapi" = none)
    (hd : api_doc st = .ok d) :
    dictGet d "openapi" = some (.str "3.0.3") ∧
    (∀ info ext v, (OpenAPI_init info ext v).openapi_version = "3.0.3") := by
  refine ⟨?_, fun _ _ _ => rfl⟩
  obtain ⟨pd, pd2, _hpm, _hpp, rfl⟩ := api_doc_ok_shape st d hd
  rw [dictGet_dictSet_ne _ _ _ _ (by decide : "openapi" ≠ "paths"),
    dictGet_dictUpdate_of_not_mem _ _ _ (dictGet_none_forall _ _ he)]
  simp [apiSpecBase, dictGet, hv]

/-- The sample application for the C5 witness: default info, no extensions. -/
def C5_sample_app : AppState :=
  OpenAPI_init [("title", .str "OpenAPI"), ("version", .str "1.0.0")]

/-- The document api_doc produces for the sample application. -/
def C5_sample_doc : List (String × JValue) :=
  [("openapi", .str "3.0.3"),
   ("info", .obj [("title", .str "OpenAPI"), ("version", .str "1.0.0")]),
   ("paths", .obj []),
   ("components", .obj [("schemas", .obj
     [("ValidationErrorResponseModel", .obj
       [("title", .str "ValidationErrorResponseModel"),
        ("type", .str "object")])])])]

/-- Witness for C5 at the sample application. -/
theorem C5_openapi_version_witness :
    dictGet C5_sample_doc "openapi" = some (.str "3.0.3") :=
  (C5_openapi_version C5_sample_app C5_sample_doc rfl rfl rfl).1

/-- The application for the C5 counterexample: openapi_extensions carries an
"openapi" key. -/
def C5_cex_app : AppState :=
  OpenAPI_init [("title", .str "OpenAPI"), ("version", .str "1.0.0")]
    (some [("openapi", .str "3.1.0")]) (.intVal 422)

/-- Counterexample to C5 as stated: with openapi_extensions
{"openapi": "3.1.0"} the generated document's openapi field is "3.1.0",
not "3.0.3", so the field does not equal "3.0.3" regardless of constructor
arguments. -/
theorem C5_openapi_version_counterexample :
    api_doc C5_cex_app =
      .ok [("openapi", .str "3.1.0"),
           ("info", .obj [("title", .str "OpenAPI"), ("version", .str "1.0.0")]),
           ("paths", .obj []),
           ("components", .obj [("schemas", .obj
             [("ValidationErrorResponseModel", .obj
               [("title", .str "ValidationErrorResponseModel"),
                ("type", .str "object")])])])] ∧
    JValue.str "3.1.0" ≠ JValue.str "3.0.3" :=
  ⟨rfl, by simp⟩

theorem processOperation_ok_has_entry (vstatus : String)
    (opd opd2 : List (String × JValue))
    (hop : processOperation vstatus opd = .ok opd2) :
    ∃ rd, dictGet opd2 "responses" = some (.obj rd) ∧ hasKey rd vstatus = true := by
  unfold processOperation at hop
  simp only [] at hop
  set op1 :=
    (match dictGet opd "responses" with
      | some r => if truthy r then opd else dictSet opd "responses" (.obj [])
      | none => dictSet opd "responses" (.obj [])) with hop1
  clear_value op1
  cases hr : dictGet op1 "responses" with
  | none => rw [hr] at hop; cases hop
  | some v =>
      cases v with
      | obj rd =>
          rw [hr] at hop
          simp only [] at hop
          by_cases ht : truthy ((dictGet rd vstatus).getD .null) = true
          · rw [if_pos ht] at hop
            cases hop
            refine ⟨rd, hr, ?_⟩
            cases he : dictGet rd vstatus with
            | none => rw [he] at ht; simp [truthy] at ht
            | some e => simp [hasKey, he]
          · rw [if_neg ht] at hop
            cases hph : dictGet HTTP_STATUS vstatus with
            | none => rw [hph] at hop; cases hop
            | some phrase =>
                rw [hph] at hop
                simp only [] at hop
                cases hop
                refine ⟨dictSet rd vstatus (validationErrorEntry phrase), ?_, ?_⟩
                · exact dictGet_dictSet_self _ _ _
                · simp [hasKey, dictGet_dictSet_self]
      | null => rw [hr] at hop; cases hop
      | boolean b => rw [hr] at hop; cases hop
      | num n => rw [hr] at hop; cases hop
      | str s => rw [hr] at hop; cases hop
      | arr items => rw [hr] at hop; cases hop

theorem processOperation_preserves_truthy (vstatus : String)
    (opd opd2 : List (String × JValue)) (rd0 : List (String × JValue))
    (hop : processOperation vstatus opd = .ok opd2)
    (hr0 : dictGet opd "responses" = some (.obj rd0))
    (ht : truthy ((dictGet rd0 vstatus).getD .null) = true) :
    dictGet opd2 "responses" = some (.obj rd0) := by
  have hne : rd0 ≠ [] := by
    intro hnil
    rw [hnil] at ht
    simp [dictGet, truthy] at ht
  have htr : truthy (JValue.obj rd0) = true := by
    simp [truthy, hne]
  unfold processOperation at hop
  rw [hr0] at hop
  simp only [htr, if_true] at hop
  rw [hr0] at hop
  simp only [] at hop
  rw [if_pos ht] at hop
  cases hop
  exact hr0

theorem processOperation_inserts (vstatus : String)
    (opd opd2 : List (String × JValue)) (rd0 : List (String × JValue))
    (hop : processOperation vstatus opd = .ok opd2)
    (hr0 : dictGet opd "responses" = some (.obj rd0))
    (ht : truthy ((dictGet rd0 vstatus).getD .null) = false) :
    ∃ phrase, dictGet HTTP_STATUS vstatus = some phrase ∧
      dictGet opd2 "responses" =
        some (.obj (dictSet rd0 vstatus (validationErrorEntry phrase))) := by
  unfold processOperation at hop
  rw [hr0] at hop
  by_cases htr : truthy (JValue.obj rd0) = true
  · simp only [htr, if_true] at hop
    rw [hr0] at hop
    simp only [] at hop
    rw [if_neg (by simp [ht])] at hop
    cases hph : dictGet HTTP_STATUS vstatus with
    | none => rw [hph] at hop; cases hop
    | some phrase =>
        rw [hph] at hop
        simp only [] at hop
        cases hop
        exact ⟨phrase, rfl, dictGet_dictSet_self _ _ _⟩
  · -- rd0 is the empty dict: the responses value is replaced by {} first
    have hnil : rd0 = [] := by
      cases rd0 with
      | nil => rfl
      | cons a b => simp [truthy] at htr
    subst hnil
    simp only [truthy, List.isEmpty_nil, Bool.not_true, Bool.false_eq_true,
      if_false] at hop
    rw [dictGet_dictSet_self] at hop
    simp only [] at hop
    rw [if_neg (by simp [dictGet, truthy])] at hop
    cases hph : dictGet HTTP_STATUS vstatus with
    | none => rw [hph] at hop; cases hop
    | some phrase =>
        rw [hph] at hop
        simp only [] at hop
        cases hop
        refine ⟨phrase, rfl, ?_⟩
        rw [dictGet_dictSet_self]

theorem processPathItem_ok_mem (vstatus : String)
    (item item2 : List (String × JValue))
    (hi : processPathItem vstatus item = .ok item2) :
    ∀ q ∈ item2, ∃ opd opd2, q.2 = .obj opd2 ∧
      processOperation vstatus opd = .ok opd2 := by
  induction item generalizing item2 with
  | nil =>
      unfold processPathItem at hi
      cases hi
      intro q hq; cases hq
  | cons p rest ih =>
      obtain ⟨meth, op⟩ := p
      unfold processPathItem at hi
      cases op with
      | obj opd =>
          simp only [] at hi
          cases hop : processOperation vstatus opd with
          | error e => rw [hop] at hi; cases hi
          | ok opd2 =>
              rw [hop] at hi
              simp only [] at hi
              cases hrest : processPathItem vstatus rest with
              | error e => rw [hrest] at hi; cases hi
              | ok rest2 =>
                  rw [hrest] at hi
                  simp only [] at hi
                  cases hi
                  intro q hq
                  rcases List.mem_cons.mp hq with rfl | hq2
                  · exact ⟨opd, opd2, rfl, hop⟩
                  · exact ih rest2 hrest q hq2
      | null => simp only [] at hi; cases hi
      | boolean b => simp only [] at hi; cases hi
      | num n => simp only [] at hi; cases hi
      | str s => simp only [] at hi; cases hi
      | arr items => simp only [] at hi; cases hi

theorem processPaths_ok_mem (vstatus : String)
    (pd pd2 : List (String × JValue))
    (hp : processPaths vstatus pd = .ok pd2) :
    ∀ q ∈ pd2, ∃ itemd item2, q.2 = .obj item2 ∧
      processPathItem vstatus itemd = .ok item2 := by
  induction pd generalizing pd2 with
  | nil =>
      unfold processPaths at hp
      cases hp
      intro q hq; cases hq
  | cons p rest ih =>
      obtain ⟨rule, item⟩ := p
      unfold processPaths at hp
      cases item with
      | obj itemd =>
          simp only [] at hp
          cases hitem : processPathItem vstatus itemd with
          | error e => rw [hitem] at hp; cases hp
          | ok item2 =>
              rw [hitem] at hp
              simp only [] at hp
              cases hrest : processPaths vstatus rest with
              | error e => rw [hrest] at hp; cases hp
              | ok rest2 =>
                  rw [hrest] at hp
                  simp only [] at hp
                  cases hp
                  intro q hq
                  rcases List.mem_cons.mp hq with rfl | hq2
                  · exact ⟨itemd, item2, rfl, hitem⟩
                  · exact ih rest2 hrest q hq2
      | null => simp only [] at hp; cases hp
      | boolean b => simp only [] at hp; cases hp
      | num n => simp only [] at hp; cases hp
      | str s => simp only [] at hp; cases hp
      | arr items => simp only [] at hp; cases hp

/-- C8 (amended): in any dictionary api_doc returns, every operation of
every path has a responses mapping with an entry under the
validation_error_status key; an existing truthy entry is left unchanged,
but an entry that is absent or falsy (such as the empty dict) is
overwritten with the standard entry, whose description is the standard
HTTP phrase and whose application/json schema is an array of references
to ValidationErrorResponseModel. -/
theorem C8_validation_error_responses :
    (∀ st d, api_doc st = .ok d →
      ∃ pd2, dictGet d "paths" = some (.obj pd2) ∧
        ∀ q ∈ pd2, ∃ item2, q.2 = .obj item2 ∧
          ∀ op ∈ item2, ∃ opd2, op.2 = .obj opd2 ∧
            ∃ rd, dictGet opd2 "responses" = some (.obj rd) ∧
              hasKey rd st.validation_error_status = true) ∧
    (∀ vstatus opd opd2 rd0,
      processOperation vstatus opd = .ok opd2 →
      dictGet opd "responses" = some (.obj rd0) →
      (truthy ((dictGet rd0 vstatus).getD .null) = true →
        dictGet opd2 "responses" = some (.obj rd0)) ∧
      (truthy ((dictGet rd0 vstatus).getD .null) = false →
        ∃ phrase, dictGet HTTP_STATUS vstatus = some phrase ∧
          dictGet opd2 "responses" =
            some (.obj (dictSet rd0 vstatus (validationErrorEntry phrase))))) := by
  constructor
  · intro st d hd
    obtain ⟨pd, pd2, _hpm, hpp, rfl⟩ := api_doc_ok_shape st d hd
    refine ⟨pd2, dictGet_dictSet_self _ _ _, ?_⟩
    intro q hq
    obtain ⟨itemd, item2, hq2, hitem⟩ := processPaths_ok_mem _ _ _ hpp q hq
    refine ⟨item2, hq2, ?_⟩
    intro op hop
    obtain ⟨opd, opd2, hop2, hproc⟩ := processPathItem_ok_mem _ _ _ hitem op hop
    obtain ⟨rd, hrd, hk⟩ := processOperation_ok_has_entry _ _ _ hproc
    exact ⟨opd2, hop2, rd, hrd, hk⟩
  · intro vstatus opd opd2 rd0 hop hr0
    exact ⟨fun ht => processOperation_preserves_truthy _ _ _ _ hop hr0 ht,
           fun ht => processOperation_inserts _ _ _ _ hop hr0 ht⟩

/-- The sample application for the C8 witness: one route whose operation
already has a 200 response but no 422 entry. -/
def C8_sample_app : AppState :=
  OpenAPI_init [("title", .str "T"), ("version", .str "1.0")]
    (some [("paths", .obj [("/pets", .obj [("get", .obj
      [("responses", .obj [("200", .obj [("description", .str "OK")])])])])])])
    (.intVal 422)

/-- The document api_doc produces for the C8 sample application. -/
def C8_sample_doc : List (String × JValue) :=
  [("openapi", .str "3.0.3"),
   ("info", .obj [("title", .str "T"), ("version", .str "1.0")]),
   ("paths", .obj [("/pets", .obj [("get", .obj
     [("responses", .obj
       [("200", .obj [("description", .str "OK")]),
        ("422", validationErrorEntry "Unprocessable Entity")])])])]),
   ("components", .obj [("schemas", .obj
     [("ValidationErrorResponseModel", .obj
       [("title", .str "ValidationErrorResponseModel"),
        ("type", .str "object")])])])]

/-- Witness for C8 at the sample application: the generated document has a
422 entry in the operation's responses, and processOperation inserted the
standard entry next to the existing 200 one. -/
theorem C8_validation_error_responses_witness :
    (∃ pd2, dictGet C8_sample_doc "paths" = some (JValue.obj pd2) ∧
      ∀ q ∈ pd2, ∃ item2, q.2 = JValue.obj item2 ∧
        ∀ op ∈ item2, ∃ opd2, op.2 = JValue.obj opd2 ∧
          ∃ rd, dictGet opd2 "responses" = some (JValue.obj rd) ∧
            hasKey rd "422" = true) ∧
    (∃ phrase, dictGet HTTP_STATUS "422" = some phrase ∧
      dictGet [("responses", JValue.obj
          [("200", JValue.obj [("description", JValue.str "OK")]),
           ("422", validationErrorEntry "Unprocessable Entity")])] "responses" =
        some (JValue.obj (dictSet [("200", JValue.obj [("description", JValue.str "OK")])]
          "422" (validationErrorEntry phrase)))) :=
  ⟨C8_validation_error_responses.1 C8_sample_app C8_sample_doc rfl,
   (C8_validation_error_responses.2 "422"
      [("responses", JValue.obj [("200", JValue.obj [("description", JValue.str "OK")])])]
      [("responses", JValue.obj
        [("200", JValue.obj [("description", JValue.str "OK")]),
         ("422", validationErrorEntry "Unprocessable Entity")])]
      [("200", JValue.obj [("description", JValue.str "OK")])]
      rfl rfl).2 rfl⟩

/-- The application for the C8 counterexample: the operation already has an
entry at the 422 key, but a falsy one (the empty dict). -/
def C8_cex_app : AppState :=
  OpenAPI_init [("title", .str "T"), ("version", .str "1.0")]
    (some [("paths", .obj [("/x", .obj [("get", .obj
      [("responses", .obj [("422", .obj [])])])])])])
    (.intVal 422)

/-- Counterexample to C8 as stated: the already-existing (falsy) entry at
the 422 key is not left unchanged; api_doc replaces it with the standard
entry. -/
theorem C8_validation_error_responses_counterexample :
    api_doc C8_cex_app =
      .ok [("openapi", .str "3.0.3"),
           ("info", .obj [("title", .str "T"), ("version", .str "1.0")]),
           ("paths", .obj [("/x", .obj [("get", .obj
             [("responses", .obj
               [("422", validationErrorEntry "Unprocessable Entity")])])])]),
           ("components", .obj [("schemas", .obj
             [("ValidationErrorResponseModel", .obj
               [("title", .str "ValidationErrorResponseModel"),
                ("type", .str "object")])])])] ∧
    validationErrorEntry "Unprocessable Entity" ≠ JValue.obj [] :=
  ⟨rfl, by simp [validationErrorEntry]⟩

theorem hasKey_any {α : Type} (d : List (String × α)) (k : String) :
    hasKey d k = d.any (fun p => p.1 = k) := by
  induction d with
  | nil => rfl
  | cons p rest ih =>
      obtain ⟨a, b⟩ := p
      by_cases ha : a = k <;> simp [hasKey, dictGet, ha] <;>
        simpa [hasKey] using ih

theorem hasKey_foldl_dictSet_norm (l : List (String × JValue))
    (acc : List (String × JValue)) (k : String) :
    hasKey (l.foldl (fun s p => dictSet s (normalize_name p.1) p.2) acc) k =
      (hasKey acc k || l.any (fun p => normalize_name p.1 = k)) := by
  induction l generalizing acc with
  | nil => simp
  | cons p rest ih =>
      rw [List.foldl_cons, ih, hasKey_dictSet, List.any_cons]
      simp [Bool.or_assoc, Bool.or_left_comm, Bool.or_comm]

theorem hasKey_dictUpdate_or {α : Type} (d u : List (String × α)) (k : String) :
    hasKey (dictUpdate d u) k = (hasKey d k || hasKey u k) := by
  rw [hasKey_dictUpdate, hasKey_any, hasKey_any u k]

/-- The model for the C4 counterexample: its pydantic schema carries a
$defs entry whose key is not a normalized title (get_responses normalizes
such keys, parse_body and parse_form copy them verbatim). -/
def C4_cex_model : PyModel :=
  { name := "OuterBody"
    validationSchema :=
      [("title", .str "OuterBody"),
       ("type", .str "object"),
       ("properties", .obj [("inner", .obj
         [("$ref", .str "#/components/schemas/Bad Name")])]),
       ("$defs", .obj [("Bad Name", .obj
         [("title", .str "Bad Name"), ("type", .str "object")])])] }

/-- The model for the Unicode side of the C4 counterexample: its schema
title carries a non-ASCII word character, which Python's \w keeps. -/
def C4_cex_cafe_model : PyModel :=
  { name := "CafeBody"
    validationSchema :=
      [("title", .str "Café"), ("type", .str "object"),
       ("properties", .obj [("a", .obj [("type", .str "integer")])])] }

/-- Counterexample to C4 as stated: parse_body records the component-schema
key "Bad Name" (copied verbatim from $defs), which is not the normalize_name
of any string and does not match the OpenAPI key pattern; and for a model
whose schema title is "Café", normalize_name keeps the non-ASCII word
character (as Python's Unicode \w does), so even the key recorded for the
model itself violates the pattern. -/
theorem C4_component_schema_keys_counterexample :
    hasKey (parse_body (.model C4_cex_model)).2 "Bad Name" = true ∧
    matchesComponentKeyPattern "Bad Name" = false ∧
    normalize_name "Café" = "Café" ∧
    matchesComponentKeyPattern "Café" = false ∧
    hasKey (parse_body (.model C4_cex_cafe_model)).2 "Café" = true ∧
    (∀ s : String, normalize_name s ≠ "Bad Name") := by
  refine ⟨rfl, by decide, by decide, by decide, rfl, ?_⟩
  intro s hs
  have hmem : ' ' ∈ (normalize_name s).toList := by
    rw [hs]; decide
  rw [show (normalize_name s).toList =
      s.toList.map (fun c => if isNameKeepChar c then c else '_') from rfl] at hmem
  rw [List.mem_map] at hmem
  obtain ⟨c, _, heq⟩ := hmem
  by_cases hk : isNameKeepChar c = true
  · rw [if_pos hk] at heq
    subst heq
    exact absurd hk (by decide)
  · rw [if_neg hk] at heq
    exact absurd heq (by decide)

/-- C4 (amended): normalize_name replaces exactly the characters outside
[\w.\-] with an underscore, and for an ASCII title its output matches the
OpenAPI key pattern (Python's \w is Unicode, so a non-ASCII word character
in a title is kept and the resulting key violates the ASCII pattern); the
component-schema key each of parse_form, parse_body and get_responses
records for the model itself is the normalize_name of the model's schema
title (or class name); in addition the schema's $defs entries are copied
into components_schemas, keyed verbatim by parse_form and parse_body and
keyed by their normalize_name by get_responses; and two models with the
same normalized title share a single components entry. -/
theorem C4_component_schema_keys :
    (∀ s : String,
      (normalize_name s).toList =
        s.toList.map (fun c => if isNameKeepChar c then c else '_') ∧
      (s.toList ≠ [] → s.toList.all (fun c => c.toNat < 128) = true →
        matchesComponentKeyPattern (normalize_name s) = true)) ∧
    (∀ m, is_application_json (bodyContentType m) = true →
      ∀ k, hasKey (parse_body (.model m)).2 k = true ↔
        (bodyNormalizedTitle m = k ∨
          (getObjFields (get_model_schema m) "$defs").any
            (fun p => p.1 = k) = true)) ∧
    (∀ m content comps, parse_form m = .ok (content, comps) →
      ∀ k, hasKey comps k = true ↔
        (normalize_name (schemaTitleOrName (get_model_schema m) m.name) = k ∨
          (getObjFields (get_model_schema m) "$defs").any
            (fun p => p.1 = k) = true)) ∧
    (∀ m key cs op, is_application_json (bodyContentType m) = true →
      ∀ k, hasKey (get_responses [(key, .plain (.rmodel m))] cs op).1 k = true ↔
        (hasKey cs k = true ∨
          normalize_name
            (schemaTitleOrName (get_model_schema m .serialization) m.name) = k ∨
          (getObjFields (get_model_schema m .serialization) "$defs").any
            (fun p => normalize_name p.1 = k) = true)) ∧
    (∀ m1 m2, is_application_json (bodyContentType m1) = true →
      is_application_json (bodyContentType m2) = true →
      bodyNormalizedTitle m1 = bodyNormalizedTitle m2 →
      getObjFields (get_model_schema m1) "$defs" = [] →
      getObjFields (get_model_schema m2) "$defs" = [] →
      (parse_body (.union [m1, m2])).2 =
        [(bodyNormalizedTitle m1, .obj (get_model_schema m2))]) := by
  refine ⟨?_, ?_, ?_, ?_, ?_⟩
  · intro s
    refine ⟨rfl, fun hne hascii => ?_⟩
    unfold matchesComponentKeyPattern
    rw [Bool.and_eq_true]
    constructor
    · rw [show (normalize_name s).toList =
          s.toList.map (fun c => if isNameKeepChar c then c else '_') from rfl]
      cases hs : s.toList with
      | nil => exact absurd hs hne
      | cons c cs => simp
    · rw [show (normalize_name s).toList =
          s.toList.map (fun c => if isNameKeepChar c then c else '_') from rfl]
      apply List.all_eq_true.mpr
      intro x hx
      rw [List.mem_map] at hx
      obtain ⟨c, hcmem, rfl⟩ := hx
      have hca : c.toNat < 128 := by
        simpa using (List.all_eq_true.mp hascii) c hcmem
      by_cases hk : isNameKeepChar c = true
      · rw [if_pos hk]
        rw [isNameKeepChar, Bool.or_eq_true] at hk
        rcases hk with hk | hk
        · exact hk
        · exfalso
          rw [decide_eq_true_eq] at hk
          omega
      · rw [if_neg hk]; decide
  · intro m hj k
    have hj' : is_application_json
        (m.openapi_extra.content_type.getD "application/json") = true := hj
    have hshape : (parse_body (.model m)).2 =
        dictUpdate
          (dictSet [] (bodyNormalizedTitle m) (.obj (get_model_schema m)))
          (getObjFields (get_model_schema m) "$defs") := by
      simp [parse_body, parseBodyStep, hj', bodyNormalizedTitle, dictUpdate]
    rw [hshape, hasKey_dictUpdate, hasKey_dictSet]
    simp [hasKey, dictGet]
  · intro m content comps hf k
    unfold parse_form at hf
    by_cases hp : (getObjFields (get_model_schema m) "properties").isEmpty = true
    · rw [if_pos hp] at hf; cases hf
    · rw [if_neg hp] at hf
      simp only [] at hf
      rw [Except.ok.injEq, Prod.mk.injEq] at hf
      obtain ⟨_, hcomps⟩ := hf
      subst hcomps
      rw [show ((getObjFields (get_model_schema m) "$defs").foldl
          (fun cs p => dictSet cs p.1 p.2)
          (dictSet [] (normalize_name (schemaTitleOrName (get_model_schema m) m.name))
            (.obj (get_model_schema m)))) =
        dictUpdate
          (dictSet [] (normalize_name (schemaTitleOrName (get_model_schema m) m.name))
            (.obj (get_model_schema m)))
          (getObjFields (get_model_schema m) "$defs") from rfl]
      rw [hasKey_dictUpdate, hasKey_dictSet]
      simp [hasKey, dictGet]
  · intro m key cs op hj k
    have hj' : is_application_json
        (m.openapi_extra.content_type.getD "application/json") = true := hj
    have hshape : (get_responses [(key, .plain (.rmodel m))] cs op).1 =
        dictUpdate cs
          ((getObjFields (get_model_schema m .serialization) "$defs").foldl
            (fun s p => dictSet s (normalize_name p.1) p.2)
            (dictSet []
              (normalize_name
                (schemaTitleOrName (get_model_schema m .serialization) m.name))
              (.obj (get_model_schema m .serialization)))) := by
      simp [get_responses, foldResponsesEntry, parseResponseOne, hj', dictGet]
    rw [hshape, hasKey_dictUpdate_or, hasKey_foldl_dictSet_norm, hasKey_dictSet]
    simp [hasKey, dictGet, Bool.or_assoc]
  · intro m1 m2 hj1 hj2 ht hd1 hd2
    have hj1' : is_application_json
        (m1.openapi_extra.content_type.getD "application/json") = true := hj1
    have hj2' : is_application_json
        (m2.openapi_extra.content_type.getD "application/json") = true := hj2
    have ht' : normalize_name (schemaTitleOrName (get_model_schema m1) m1.name) =
        normalize_name (schemaTitleOrName (get_model_schema m2) m2.name) := ht
    simp [parse_body, parseBodyStep, hj1', hj2', hd1, hd2, bodyNormalizedTitle,
      ht', dictSet]

/-- Witness for C4 at concrete models: DogBody is registered under its
normalized title, the normalized form of a title with spaces and
punctuation matches the key pattern, and two models with the same
normalized title share one components entry. -/
theorem C4_component_schema_keys_witness :
    hasKey (parse_body (.model DogBody)).2 "DogBody" = true ∧
    matchesComponentKeyPattern (normalize_name "Outer Body!") = true ∧
    (parse_body (.union [DogBody, { DogBody with name := "DogBody2" }])).2 =
      [("DogBody", .obj (get_model_schema { DogBody with name := "DogBody2" }))] :=
  ⟨(C4_component_schema_keys.2.1 DogBody (by decide) "DogBody").mpr
      (Or.inl (by decide)),
   (C4_component_schema_keys.1 "Outer Body!").2 (by decide) (by decide),
   C4_component_schema_keys.2.2.2.2 DogBody { DogBody with name := "DogBody2" }
     (by decide) (by decide) (by decide) rfl rfl⟩

theorem takeWhile_append_of_all {α : Type} (p : α → Bool) (a b : List α)
    (h : ∀ c ∈ a, p c = true) : (a ++ b).takeWhile p = a ++ b.takeWhile p := by
  induction a with
  | nil => simp
  | cons c cs ih =>
      have hc := h c (by simp)
      simp [List.takeWhile_cons, hc, ih (fun d hd => h d (by simp [hd]))]

theorem dropWhile_append_of_all {α : Type} (p : α → Bool) (a b : List α)
    (h : ∀ c ∈ a, p c = true) : (a ++ b).dropWhile p = b.dropWhile p := by
  induction a with
  | nil => simp
  | cons c cs ih =>
      have hc := h c (by simp)
      simp [List.dropWhile_cons, hc, ih (fun d hd => h d (by simp [hd]))]

/-- A syntactic part of a Flask rule: a literal run, a bare parameter
marker <name>, or a converter-prefixed marker <converter:name>. -/
inductive RulePart where
  | lit (s : List Char)
  | param (name : List Char)
  | conv (converter name : List Char)
deriving Repr, BEq, Inhabited

/-- The characters a part contributes to the rule string. -/
def renderPart : RulePart → List Char
  | .lit s => s
  | .param n => '<' :: (n ++ ['>'])
  | .conv cv n => '<' :: (cv ++ ':' :: (n ++ ['>']))

/-- The rule string of a part list. -/
def renderRule (ps : List RulePart) : List Char := (ps.map renderPart).join

/-- The brace form the specification describes: each marker becomes {name}. -/
def bracedPart : RulePart → List Char
  | .lit s => s
  | .param n => '{' :: (n ++ ['}'])
  | .conv _ n => '{' :: (n ++ ['}'])

/-- The brace form of a whole rule. -/
def bracedRule (ps : List RulePart) : List Char := (ps.map bracedPart).join

/-- A character with no role in the rule grammar. -/
def plainChar (c : Char) : Bool := !(c = '<' || c = '>' || c = ':')

/-- Well-formedness of a part: literals and names consist of plain
characters, and a converter is additionally non-empty. -/
def wellFormedPart : RulePart → Bool
  | .lit s => s.all plainChar
  | .param n => n.all plainChar
  | .conv cv n => !cv.isEmpty && cv.all plainChar && n.all plainChar

/-- Well-formedness of a rule: every colon is a converter separator and
every angle bracket delimits a marker. -/
def wellFormedRule (ps : List RulePart) : Bool := ps.all wellFormedPart

/-- The intermediate form after the regex pass, before > becomes }. -/
def subbedPart : RulePart → List Char
  | .lit s => s
  | .param n => '{' :: (n ++ ['>'])
  | .conv _ n => '{' :: (n ++ ['>'])

theorem uriSubPass_append_no_lt (s rest : List Char) (h : ∀ c ∈ s, c ≠ '<') :
    uriSubPass (s ++ rest) = s ++ uriSubPass rest := by
  induction s with
  | nil => rfl
  | cons c cs ih =>
      have hc : c ≠ '<' := h c (by simp)
      rw [List.cons_append]
      rw [show uriSubPass (c :: (cs ++ rest)) = c :: uriSubPass (cs ++ rest) from by
        simp only [uriSubPass, if_neg hc]]
      rw [ih (fun d hd => h d (by simp [hd]))]
      rfl

theorem dropWhile_render_shape (ps : List RulePart) (h : wellFormedRule ps = true) :
    (renderRule ps).dropWhile (fun d => !(d = '<' || d = ':')) = [] ∨
    ∃ u, (renderRule ps).dropWhile (fun d => !(d = '<' || d = ':')) = '<' :: u := by
  induction ps with
  | nil => left; rfl
  | cons p rest ih =>
      have hp : wellFormedPart p = true := by
        rw [wellFormedRule, List.all_cons, Bool.and_eq_true] at h
        exact h.1
      have hrest : wellFormedRule rest = true := by
        rw [wellFormedRule, List.all_cons, Bool.and_eq_true] at h
        exact h.2
      cases p with
      | lit s =>
          have hs : ∀ c ∈ s, (fun d => !(d = '<' || d = ':')) c = true := by
            intro c hc
            have hpl := (List.all_eq_true.mp hp) c hc
            simp only [plainChar] at hpl
            simp only [Bool.not_eq_true', Bool.or_eq_false_iff] at hpl ⊢
            exact ⟨hpl.1.1, hpl.2⟩
          rw [show renderRule (RulePart.lit s :: rest) = s ++ renderRule rest from by
            simp [renderRule, renderPart]]
          rw [dropWhile_append_of_all _ _ _ hs]
          exact ih hrest
      | param n =>
          right
          refine ⟨n ++ ['>'] ++ renderRule rest, ?_⟩
          rw [show renderRule (RulePart.param n :: rest) =
              '<' :: (n ++ ['>'] ++ renderRule rest) from by
            simp [renderRule, renderPart]]
          rw [List.dropWhile_cons]
          simp
      | conv cv n =>
          right
          refine ⟨cv ++ ':' :: (n ++ ['>']) ++ renderRule rest, ?_⟩
          rw [show renderRule (RulePart.conv cv n :: rest) =
              '<' :: (cv ++ ':' :: (n ++ ['>']) ++ renderRule rest) from by
            simp [renderRule, renderPart]]
          rw [List.dropWhile_cons]
          simp

theorem plainChar_pfn {s : List Char} (h : s.all plainChar = true) :
    ∀ c ∈ s, (fun d => !(d = '<' || d = ':')) c = true := by
  intro c hc
  have hpl := (List.all_eq_true.mp h) c hc
  simp only [plainChar] at hpl
  simp only [Bool.not_eq_true', Bool.or_eq_false_iff] at hpl ⊢
  exact ⟨hpl.1.1, hpl.2⟩

theorem plainChar_no_lt {s : List Char} (h : s.all plainChar = true) :
    ∀ c ∈ s, c ≠ '<' := by
  intro c hc
  have hpl := (List.all_eq_true.mp h) c hc
  simp only [plainChar, Bool.not_eq_true', Bool.or_eq_false_iff,
    decide_eq_false_iff_not] at hpl
  exact hpl.1.1

theorem plainChar_no_gt {s : List Char} (h : s.all plainChar = true) :
    ∀ c ∈ s, c ≠ '>' := by
  intro c hc
  have hpl := (List.all_eq_true.mp h) c hc
  simp only [plainChar, Bool.not_eq_true', Bool.or_eq_false_iff,
    decide_eq_false_iff_not] at hpl
  exact hpl.1.2

theorem uriSubPass_param (n rest : List Char) (hn : n.all plainChar = true)
    (hrest : rest.dropWhile (fun d => !(d = '<' || d = ':')) = [] ∨
      ∃ u, rest.dropWhile (fun d => !(d = '<' || d = ':')) = '<' :: u) :
    uriSubPass ('<' :: (n ++ '>' :: rest)) =
      '{' :: (n ++ '>' :: uriSubPass rest) := by
  have hsplit : n ++ '>' :: rest = (n ++ ['>']) ++ rest := by simp
  have hallpfn : ∀ c ∈ n ++ ['>'], (fun d => !(d = '<' || d = ':')) c = true := by
    intro c hc
    rcases List.mem_append.mp hc with h1 | h1
    · exact plainChar_pfn hn c h1
    · rw [List.mem_singleton] at h1; subst h1; rfl
  have hdrop : (n ++ '>' :: rest).dropWhile (fun d => !(d = '<' || d = ':')) =
      rest.dropWhile (fun d => !(d = '<' || d = ':')) := by
    rw [hsplit]
    exact dropWhile_append_of_all _ _ _ hallpfn
  have hcond :
      ¬(¬((n ++ '>' :: rest).takeWhile (fun d => !(d = '<' || d = ':'))).isEmpty = true ∧
        ((n ++ '>' :: rest).dropWhile (fun d => !(d = '<' || d = ':'))).head? =
          some ':') := by
    intro hcontra
    rcases hcontra with ⟨_, hhead⟩
    rw [hdrop] at hhead
    rcases hrest with he | ⟨u, he⟩ <;> rw [he] at hhead <;> simp at hhead
  rw [show uriSubPass ('<' :: (n ++ '>' :: rest)) =
      '{' :: uriSubPass (n ++ '>' :: rest) from by
    simp only [uriSubPass, if_pos rfl, dif_neg hcond, if_true]]
  rw [hsplit, uriSubPass_append_no_lt _ _ ?hnl]
  case hnl =>
    intro c hc
    rcases List.mem_append.mp hc with h1 | h1
    · exact plainChar_no_lt hn c h1
    · rw [List.mem_singleton] at h1; subst h1; decide
  simp

theorem uriSubPass_conv (cv n rest : List Char) (hcv : cv.isEmpty = false)
    (hcvp : cv.all plainChar = true) (hn : n.all plainChar = true) :
    uriSubPass ('<' :: (cv ++ ':' :: (n ++ '>' :: rest))) =
      '{' :: (n ++ '>' :: uriSubPass rest) := by
  have htake : (cv ++ ':' :: (n ++ '>' :: rest)).takeWhile
      (fun d => !(d = '<' || d = ':')) = cv := by
    rw [takeWhile_append_of_all _ _ _ (plainChar_pfn hcvp)]
    simp [List.takeWhile_cons]
  have hdrop : (cv ++ ':' :: (n ++ '>' :: rest)).dropWhile
      (fun d => !(d = '<' || d = ':')) = ':' :: (n ++ '>' :: rest) := by
    rw [dropWhile_append_of_all _ _ _ (plainChar_pfn hcvp)]
    simp [List.dropWhile_cons]
  have hcond :
      ¬((cv ++ ':' :: (n ++ '>' :: rest)).takeWhile
          (fun d => !(d = '<' || d = ':'))).isEmpty = true ∧
        ((cv ++ ':' :: (n ++ '>' :: rest)).dropWhile
          (fun d => !(d = '<' || d = ':'))).head? = some ':' := by
    constructor
    · rw [htake]; simp [hcv]
    · rw [hdrop]; rfl
  rw [show uriSubPass ('<' :: (cv ++ ':' :: (n ++ '>' :: rest))) =
      '{' :: uriSubPass ((cv ++ ':' :: (n ++ '>' :: rest)).dropWhile
        (fun d => !(d = '<' || d = ':'))).tail from by
    simp only [uriSubPass, if_pos rfl, dif_pos hcond, if_true]]
  rw [hdrop]
  rw [show (':' :: (n ++ '>' :: rest)).tail = (n ++ ['>']) ++ rest from by simp]
  rw [uriSubPass_append_no_lt _ _ ?hnl]
  case hnl =>
    intro c hc
    rcases List.mem_append.mp hc with h1 | h1
    · exact plainChar_no_lt hn c h1
    · rw [List.mem_singleton] at h1; subst h1; decide
  simp

theorem uriSubPass_renderRule (ps : List RulePart) (h : wellFormedRule ps = true) :
    uriSubPass (renderRule ps) = (ps.map subbedPart).join := by
  induction ps with
  | nil => simp [renderRule, uriSubPass]
  | cons p rest ih =>
      have hp : wellFormedPart p = true := by
        rw [wellFormedRule, List.all_cons, Bool.and_eq_true] at h
        exact h.1
      have hrest : wellFormedRule rest = true := by
        rw [wellFormedRule, List.all_cons, Bool.and_eq_true] at h
        exact h.2
      cases p with
      | lit s =>
          rw [show renderRule (RulePart.lit s :: rest) = s ++ renderRule rest from by
            simp [renderRule, renderPart]]
          rw [uriSubPass_append_no_lt _ _ (plainChar_no_lt hp), ih hrest]
          simp [subbedPart]
      | param n =>
          rw [show renderRule (RulePart.param n :: rest) =
              '<' :: (n ++ '>' :: renderRule rest) from by
            simp [renderRule, renderPart]]
          rw [uriSubPass_param n (renderRule rest) hp
            (dropWhile_render_shape rest hrest), ih hrest]
          simp [subbedPart]
      | conv cv n =>
          rw [wellFormedPart, Bool.and_eq_true, Bool.and_eq_true] at hp
          have h1 : cv.isEmpty = false := by
            have := hp.1.1
            simp only [Bool.not_eq_true'] at this
            exact this
          rw [show renderRule (RulePart.conv cv n :: rest) =
              '<' :: (cv ++ ':' :: (n ++ '>' :: renderRule rest)) from by
            simp [renderRule, renderPart]]
          rw [uriSubPass_conv cv n (renderRule rest) h1 hp.1.2 hp.2, ih hrest]
          simp [subbedPart]


theorem map_replaceGt_id (s : List Char) (hs : ∀ c ∈ s, c ≠ '>') :
    s.map (fun c => if c = '>' then '}' else c) = s := by
  induction s with
  | nil => rfl
  | cons c cs ih =>
      rw [List.map_cons, if_neg (hs c (by simp)),
        ih (fun d hd => hs d (by simp [hd]))]

theorem replaceGtPass_subbed (ps : List RulePart) (h : wellFormedRule ps = true) :
    replaceGtPass ((ps.map subbedPart).join) = bracedRule ps := by
  induction ps with
  | nil => rfl
  | cons p rest ih =>
      have hp : wellFormedPart p = true := by
        rw [wellFormedRule, List.all_cons, Bool.and_eq_true] at h
        exact h.1
      have hrest : wellFormedRule rest = true := by
        rw [wellFormedRule, List.all_cons, Bool.and_eq_true] at h
        exact h.2
      have hjoin : ((p :: rest).map subbedPart).join =
          subbedPart p ++ (rest.map subbedPart).join := by simp
      have hbr : bracedRule (p :: rest) = bracedPart p ++ bracedRule rest := by
        simp [bracedRule]
      rw [hjoin, hbr, replaceGtPass, List.map_append]
      rw [show (rest.map subbedPart).join.map (fun c => if c = '>' then '}' else c) =
          replaceGtPass (rest.map subbedPart).join from rfl, ih hrest]
      cases p with
      | lit s =>
          rw [show subbedPart (RulePart.lit s) = s from rfl,
            show bracedPart (RulePart.lit s) = s from rfl,
            map_replaceGt_id s (plainChar_no_gt hp)]
      | param n =>
          rw [show subbedPart (RulePart.param n) = '{' :: (n ++ ['>']) from rfl,
            show bracedPart (RulePart.param n) = '{' :: (n ++ ['}']) from rfl]
          rw [List.map_cons, if_neg (by decide : ¬('{' : Char) = '>'),
            List.map_append, map_replaceGt_id n (plainChar_no_gt hp)]
          rfl
      | conv cv n =>
          rw [wellFormedPart, Bool.and_eq_true, Bool.and_eq_true] at hp
          rw [show subbedPart (RulePart.conv cv n) = '{' :: (n ++ ['>']) from rfl,
            show bracedPart (RulePart.conv cv n) = '{' :: (n ++ ['}']) from rfl]
          rw [List.map_cons, if_neg (by decide : ¬('{' : Char) = '>'),
            List.map_append, map_replaceGt_id n (plainChar_no_gt hp.2)]
          rfl

/-- C7 (amended): the key parse_method records for a registered rule is the
uri computed by re.sub(r"<([^<:]+:)?", "{", rule).replace(">", "}"); for
every rule in which each colon is a converter separator and each angle
bracket delimits a marker, that computation rewrites every marker
<converter:name> (or <name>) to {name} and leaves literals unchanged.  (In
general, a colon appearing after a marker makes the regular expression
consume from the marker's < through that colon.) -/
theorem C7_uri_rewriting :
    (∀ rule method paths op,
      method ∈ ["GET", "POST", "PUT", "PATCH", "DELETE"] →
      hasKey (parse_method (uriOfRule rule) method paths op) (uriOfRule rule)
        = true) ∧
    (∀ ps, wellFormedRule ps = true →
      uriOfRule (String.mk (renderRule ps)) = String.mk (bracedRule ps)) := by
  constructor
  · intro rule method paths op hm
    simp only [List.mem_cons, List.mem_singleton] at hm
    rcases hm with rfl | rfl | rfl | rfl | rfl | hfalse
    · cases hg : dictGet paths (uriOfRule rule) <;>
        simp [parse_method, hg, hasKey_dictSet]
    · cases hg : dictGet paths (uriOfRule rule) <;>
        simp [parse_method, hg, hasKey_dictSet]
    · cases hg : dictGet paths (uriOfRule rule) <;>
        simp [parse_method, hg, hasKey_dictSet]
    · cases hg : dictGet paths (uriOfRule rule) <;>
        simp [parse_method, hg, hasKey_dictSet]
    · cases hg : dictGet paths (uriOfRule rule) <;>
        simp [parse_method, hg, hasKey_dictSet]
    · cases hfalse
  · intro ps h
    show String.mk (replaceGtPass (uriSubPass (String.mk (renderRule ps)).toList))
        = String.mk (bracedRule ps)
    rw [show (String.mk (renderRule ps)).toList = renderRule ps from rfl]
    rw [uriSubPass_renderRule ps h, replaceGtPass_subbed ps h]

/-- Witness for C7: a converter marker and a bare marker are rewritten to
brace parameters, and the GET route is recorded under the computed uri. -/
theorem C7_uri_rewriting_witness :
    uriOfRule "/pet/<int:petId>" = "/pet/{petId}" ∧
    hasKey (parse_method (uriOfRule "/pet/<id>") "GET" [] {})
      (uriOfRule "/pet/<id>") = true :=
  ⟨C7_uri_rewriting.2
      [RulePart.lit "/pet/".toList, RulePart.conv "int".toList "petId".toList]
      (by decide),
   C7_uri_rewriting.1 "/pet/<id>" "GET" [] {} (by decide)⟩

/-- Counterexample to C7 as stated: for the rule "/pet/<petId>:adopt" the
regular expression consumes "<petId>:" whole, so the computed key is
"/pet/{adopt" and not the marker rewriting "/pet/{petId}:adopt". -/
theorem C7_uri_rewriting_counterexample :
    uriOfRule "/pet/<petId>:adopt" = "/pet/\x7badopt" ∧
    uriOfRule "/pet/<petId>:adopt" ≠ "/pet/{petId}:adopt" := by
  have h : uriOfRule "/pet/<petId>:adopt" = "/pet/\x7badopt" := by
    simp [uriOfRule, uriSubPass, replaceGtPass]
  exact ⟨h, by rw [h]; decide⟩
